import Mathlib

/-!
Detective Quest (`detetivee.c`)

A shallow embedding of the mansion explorer: the room tree (`Sala`), the map
construction of `main`, the interactive loop `explorarSalas` and the post-order
release `liberarArvore`.

Modelling conventions.
* A `Sala*` is a value of `Sala`; the null pointer is the constructor `Sala.NULL`.
* Standard input is the list of `char`s still unread; standard output is the
  list of the strings printed so far, one entry for each `printf` call.
* The local variable `escolha` is declared without an initial value, so its
  content at entry is a parameter of the model.
* An unbounded `while` loop is run with a fuel counter: one unit for each test
  of the loop condition.
* A `String` stands for the characters of a C string, the zero byte that ends it
  left out; the field `char nome[50]` holds a name of at most 49 bytes, and a copy
  of a longer name is undefined behaviour (`Res.indefinido`).
-/

namespace DetectiveQuest

/-! ## Data model -/

/-- A pointer to a room: `NULL`, or a room with its name and its two paths. -/
inductive Sala where
  | NULL : Sala
  | mk (nome : String) (esquerda : Sala) (direita : Sala) : Sala
  deriving Repr, DecidableEq, Inhabited

namespace Sala

/-- The test `p == NULL`. -/
def isNull : Sala → Bool
  | NULL => true
  | mk _ _ _ => false

/-- The field access `p->nome` (the empty text on a null pointer, which the program never reads). -/
def nome : Sala → String
  | NULL => ""
  | mk n _ _ => n

/-- The field access `p->esquerda`. -/
def esquerda : Sala → Sala
  | NULL => NULL
  | mk _ e _ => e

/-- The field access `p->direita`. -/
def direita : Sala → Sala
  | NULL => NULL
  | mk _ _ d => d

/-- The assignment `p->esquerda = q`. -/
def setEsquerda : Sala → Sala → Sala
  | NULL, _ => NULL
  | mk n _ d, q => mk n q d

/-- The assignment `p->direita = q`. -/
def setDireita : Sala → Sala → Sala
  | NULL, _ => NULL
  | mk n e _, q => mk n e q

/-- Number of rooms of a tree. -/
def contar : Sala → Nat
  | NULL => 0
  | mk _ e d => contar e + contar d + 1

/-- Number of rooms without any path (leaf rooms). -/
def folhas : Sala → Nat
  | NULL => 0
  | mk _ e d => if e.isNull && d.isNull then 1 else folhas e + folhas d

/-- Height of a tree counted in edges on the longest downward path (0 for a single room). -/
def altura : Sala → Nat
  | NULL => 0
  | mk _ e d => if e.isNull && d.isNull then 0 else max (altura e) (altura d) + 1

end Sala

/-! ## Messages printed by the program -/

def msgSeparador : String := "\n========================================\n"
def msgVoceEsta (nome : String) : String := "Voce esta em: " ++ nome ++ "\n"
def msgSemSaida : String := "Este e um comodo sem saida. Fim da exploracao neste caminho.\n"
def msgEscolha : String := "Escolha seu caminho:\n"
def msgOpcaoEsquerda (nome : String) : String := " (e) Ir para a Esquerda (" ++ nome ++ ")\n"
def msgOpcaoDireita (nome : String) : String := " (d) Ir para a Direita (" ++ nome ++ ")\n"
def msgOpcaoSair : String := " (s) Sair da mansao\n"
def msgPrompt : String := "Opcao: "
def msgBloqueadoEsquerda : String := "Caminho bloqueado. Nao ha nada a esquerda.\n"
def msgBloqueadoDireita : String := "Caminho bloqueado. Nao ha nada a direita.\n"
def msgSair : String := "Voce decidiu sair da mansao... Ate a proxima, detetive.\n"
def msgInvalida : String := "Opcao invalida. Por favor, escolha 'e', 'd' ou 's'.\n"
def msgErroAlocacao : String := "Erro de alocacao de memoria! Nao foi possivel criar a sala.\n"
def msgBemVindo : String := "--- Bem-vindo ao Detective Quest ---\n"
def msgIntro : String :=
  "Voce esta na entrada da mansao. Explore os comodos para encontrar o culpado.\n"
def msgEncerrado : String := "\nJogo encerrado.\n"

/-! ## Reading a choice: `scanf(" %c", &escolha)` -/

/-- The white-space characters of the C locale: space, `\t`, `\n`, `\v`, `\f`, `\r`. -/
def isspace (c : Char) : Bool :=
  c == ' ' || c == '\t' || c == '\n' || c == '\x0b' || c == '\x0c' || c == '\r'

/-- The call `scanf(" %c", &escolha)`: the blank in the format skips every white-space
character, then `%c` stores the next character. At the end of the input nothing is
stored and `escolha` keeps its old content. Returns the new content of `escolha` and
the input left. -/
def scanf (escolha : Char) : List Char → Char × List Char
  | [] => (escolha, [])
  | c :: cs => if isspace c then scanf escolha cs else (c, cs)

/-! ## The explorer loop -/

/-- State of `explorarSalas` at the test of the loop condition. -/
structure Estado where
  salaAtual : Sala
  escolha : Char
  entrada : List Char
  saida : List String
  deriving Repr, DecidableEq

/-- How the loop of `explorarSalas` ended: the `break` in a room without paths (`DeadEnd`),
the `return` of the exit choice (`Exited`), or the loop condition `salaAtual != NULL` being
false (`SalaNula`). -/
inductive Fim where
  | DeadEnd
  | Exited
  | SalaNula
  deriving Repr, DecidableEq

/-- Outcome of one iteration: back to the loop test in a new state, or the loop is over. -/
inductive Passo where
  | continua (s : Estado) : Passo
  | termina (f : Fim) (s : Estado) : Passo
  deriving Repr, DecidableEq

/-- The state carried by the outcome of an iteration. -/
def Passo.estado : Passo → Estado
  | .continua s => s
  | .termina _ s => s

/-- Lines 63 to 71: the menu of the current room and the prompt. -/
def menu (sala : Sala) : List String :=
  [msgEscolha]
    ++ (if sala.esquerda.isNull then [] else [msgOpcaoEsquerda sala.esquerda.nome])
    ++ (if sala.direita.isNull then [] else [msgOpcaoDireita sala.direita.nome])
    ++ [msgOpcaoSair, msgPrompt]

/-- Lines 77 to 104: the `switch` on the choice just read, in a state whose output
already holds the menu. -/
def processar (s : Estado) : Passo :=
  if s.escolha = 'e' ∨ s.escolha = 'E' then
    if !s.salaAtual.esquerda.isNull then
      .continua { s with salaAtual := s.salaAtual.esquerda }
    else
      .continua { s with saida := s.saida ++ [msgBloqueadoEsquerda] }
  else if s.escolha = 'd' ∨ s.escolha = 'D' then
    if !s.salaAtual.direita.isNull then
      .continua { s with salaAtual := s.salaAtual.direita }
    else
      .continua { s with saida := s.saida ++ [msgBloqueadoDireita] }
  else if s.escolha = 's' ∨ s.escolha = 'S' then
    .termina .Exited { s with saida := s.saida ++ [msgSair] }
  else
    .continua { s with saida := s.saida ++ [msgInvalida] }

/-- One iteration of the `while` loop of `explorarSalas`, loop test included
(lines 52 to 105). -/
def iteracao (s : Estado) : Passo :=
  if s.salaAtual.isNull then
    .termina .SalaNula s
  else
    let s1 := { s with saida := s.saida ++ [msgSeparador, msgVoceEsta s.salaAtual.nome] }
    if s1.salaAtual.esquerda.isNull && s1.salaAtual.direita.isNull then
      .termina .DeadEnd { s1 with saida := s1.saida ++ [msgSemSaida] }
    else
      let s2 := { s1 with saida := s1.saida ++ menu s1.salaAtual }
      let r := scanf s2.escolha s2.entrada
      processar { s2 with escolha := r.1, entrada := r.2 }

/-- The loop of `explorarSalas` from a state, with at most `fuel` tests of the loop
condition; `none` when the loop is still running after them. -/
def laco : Nat → Estado → Option (Fim × Estado)
  | 0, _ => none
  | fuel + 1, s =>
    match iteracao s with
    | .continua s1 => laco fuel s1
    | .termina f s1 => some (f, s1)

/-- The function `explorarSalas(salaAtual)`: `escolha` holds `escolha0` at entry, `entrada`
is the unread input and `saida` the output so far. -/
def explorarSalas (fuel : Nat) (salaAtual : Sala) (escolha0 : Char) (entrada : List Char)
    (saida : List String) : Option (Fim × Estado) :=
  laco fuel { salaAtual := salaAtual, escolha := escolha0, entrada := entrada, saida := saida }

/-- The states at the successive tests of the loop condition, for at most `fuel`
iterations (the state in which the loop ends is not repeated). -/
def trajeto : Nat → Estado → List Estado
  | 0, _ => []
  | fuel + 1, s =>
    s :: match iteracao s with
      | .continua s1 => trajeto fuel s1
      | .termina _ _ => []

/-- The rooms that are current at the successive iterations of `explorarSalas`. -/
def salasVisitadas (fuel : Nat) (s : Estado) : List Sala :=
  (trajeto fuel s).map Estado.salaAtual

/-! ## Releasing the tree -/

/-- A step from a room to one of its paths. -/
inductive Lado where
  | esq
  | dir
  deriving Repr, DecidableEq

/-- The address of a room: the steps that lead to it from the root. -/
abbrev Endereco := List Lado

/-- The function `liberarArvore(raiz)`, where `raiz` is the room at address `ender`:
every `free` appends the address of the released room to the log. -/
def liberarArvore : Sala → Endereco → List Endereco → List Endereco
  | .NULL, _, log => log
  | .mk _ e d, ender, log =>
    let log1 := liberarArvore e (ender ++ [Lado.esq]) log
    let log2 := liberarArvore d (ender ++ [Lado.dir]) log1
    log2 ++ [ender]

/-- The room at an address below a room (`NULL` when the path leaves the tree). -/
def Sala.em : Sala → Endereco → Sala
  | s, [] => s
  | s, Lado.esq :: p => Sala.em s.esquerda p
  | s, Lado.dir :: p => Sala.em s.direita p

/-- Post-order list of the addresses of the rooms of a tree whose root is at `ender`:
left subtree, right subtree, then the room itself. -/
def posOrdem : Sala → Endereco → List Endereco
  | .NULL, _ => []
  | .mk _ e d, ender =>
    posOrdem e (ender ++ [Lado.esq]) ++ posOrdem d (ender ++ [Lado.dir]) ++ [ender]

/-! ## Building the map and `main` -/

/-- What lies outside the tree while the map is built: `mem`, the number of rooms that
`malloc` can still provide, and the output so far. -/
structure Mundo where
  mem : Nat
  saida : List String
  deriving Repr, DecidableEq

/-- Result of a computation that may end the process by `exit`, or leave defined
behaviour by writing past the end of a buffer (`indefinido`). -/
inductive Res (α : Type) where
  | ok (a : α) (w : Mundo) : Res α
  | exit (codigo : Nat) (w : Mundo) : Res α
  | indefinido : Res α
  deriving Repr, DecidableEq

/-- Sequencing: an `exit` skips everything that follows, and so does undefined behaviour. -/
def Res.bind {α β : Type} (r : Res α) (f : α → Mundo → Res β) : Res β :=
  match r with
  | .ok a w => f a w
  | .exit c w => .exit c w
  | .indefinido => .indefinido

/-- Size in bytes of the field `nome` of `struct Sala`, declared `char nome[50]`. -/
def TAM_NOME : Nat := 50

/-- Whether `strcpy(novaSala->nome, nome)` stays inside the field `nome`: the bytes of the
name and the zero byte that ends it fit in `TAM_NOME` bytes. -/
def cabeNoNome (nome : String) : Bool := decide (nome.utf8ByteSize + 1 ≤ TAM_NOME)

/-- The function `criarSala(nome)`: when `malloc` fails it prints the error message and
calls `exit(1)`; otherwise `strcpy` copies the name into the field `nome` of 50 bytes,
without any check: when the name and its ending zero byte fit, the new room has the given
name and no paths; when they do not fit the copy writes past the end of the field and the
behaviour is undefined. -/
def criarSala (nome : String) (w : Mundo) : Res Sala :=
  match w.mem with
  | 0 => .exit 1 { w with saida := w.saida ++ [msgErroAlocacao] }
  | m + 1 =>
    if cabeNoNome nome then .ok (.mk nome .NULL .NULL) { w with mem := m }
    else .indefinido

/-- Lines 135 to 150 of `main`: the eight calls of `criarSala` and the assignments that
link the rooms, in program order. -/
def montarMapa (w : Mundo) : Res Sala :=
  (criarSala "Hall de Entrada" w).bind fun raiz w =>
  (criarSala "Sala de Estar" w).bind fun p w =>
  let raiz := raiz.setEsquerda p
  (criarSala "Sala de Jantar" w).bind fun p w =>
  let raiz := raiz.setDireita p
  (criarSala "Biblioteca" w).bind fun p w =>
  let raiz := raiz.setEsquerda (raiz.esquerda.setEsquerda p)
  (criarSala "Jardim de Inverno" w).bind fun p w =>
  let raiz := raiz.setEsquerda (raiz.esquerda.setDireita p)
  (criarSala "Cozinha" w).bind fun p w =>
  let raiz := raiz.setDireita (raiz.direita.setDireita p)
  (criarSala "Escritorio Secreto" w).bind fun p w =>
  let raiz := raiz.setEsquerda (raiz.esquerda.setEsquerda (raiz.esquerda.esquerda.setEsquerda p))
  (criarSala "Despensa" w).bind fun p w =>
  let raiz := raiz.setDireita (raiz.direita.setDireita (raiz.direita.direita.setEsquerda p))
  .ok raiz w

/-- What a run of the program leaves behind: the exit status, the whole output, the
input left unread and the rooms released, in order. -/
structure Final where
  codigo : Nat
  saida : List String
  entrada : List Char
  liberadas : List Endereco
  deriving Repr, DecidableEq

/-- The function `main`: `mem` rooms can be allocated, `escolha0` is the initial content
of `escolha`, `entrada` is standard input; `none` when the explorer loop is still running
after `fuel` iterations. The eight names that `main` passes to `criarSala` fit in the field
`nome`, so the map is built within defined behaviour and the last case below is never
taken (`montarMapa_definido`). -/
def main (fuel : Nat) (mem : Nat) (escolha0 : Char) (entrada : List Char) : Option Final :=
  match montarMapa { mem := mem, saida := [] } with
  | .exit c w => some { codigo := c, saida := w.saida, entrada := entrada, liberadas := [] }
  | .ok raiz w =>
    match explorarSalas fuel raiz escolha0 entrada (w.saida ++ [msgBemVindo, msgIntro]) with
    | none => none
    | some (_, s) =>
      some { codigo := 0, saida := s.saida ++ [msgEncerrado], entrada := s.entrada,
             liberadas := liberarArvore raiz [] [] }
  | .indefinido => none

/-- The sample map as the specification draws it. -/
def mapaExemplo : Sala :=
  .mk "Hall de Entrada"
    (.mk "Sala de Estar"
      (.mk "Biblioteca" (.mk "Escritorio Secreto" .NULL .NULL) .NULL)
      (.mk "Jardim de Inverno" .NULL .NULL))
    (.mk "Sala de Jantar"
      .NULL
      (.mk "Cozinha" (.mk "Despensa" .NULL .NULL) .NULL))

/-! ## Vocabulary of the properties -/

/-- The messages that report a refused choice. -/
def mensagensDeRecusa : List String := [msgBloqueadoEsquerda, msgBloqueadoDireita, msgInvalida]

/-- The letter of a choice without its case: `E`, `D`, `S` become `e`, `d`, `s` and every
other character is left as it is. Two inputs that differ only in the case of these letters
have the same image under `List.map semCaixa`. -/
def semCaixa (c : Char) : Char :=
  if c = 'E' then 'e' else if c = 'D' then 'd' else if c = 'S' then 's' else c

/-- A state with the case of the choice letters forgotten, in `escolha` and in the input. -/
def Estado.semCaixa (s : Estado) : Estado :=
  { s with escolha := DetectiveQuest.semCaixa s.escolha,
           entrada := s.entrada.map DetectiveQuest.semCaixa }

/-- The outcome of an iteration with the case of the choice letters forgotten. -/
def Passo.semCaixa : Passo → Passo
  | .continua s => .continua s.semCaixa
  | .termina f s => .termina f s.semCaixa

/-- What scenario A prints inside `explorarSalas`: three menus and the dead end. -/
def saidaCenarioA : List String :=
  [msgSeparador, msgVoceEsta "Hall de Entrada", msgEscolha, msgOpcaoEsquerda "Sala de Estar",
   msgOpcaoDireita "Sala de Jantar", msgOpcaoSair, msgPrompt,
   msgSeparador, msgVoceEsta "Sala de Estar", msgEscolha, msgOpcaoEsquerda "Biblioteca",
   msgOpcaoDireita "Jardim de Inverno", msgOpcaoSair, msgPrompt,
   msgSeparador, msgVoceEsta "Biblioteca", msgEscolha, msgOpcaoEsquerda "Escritorio Secreto",
   msgOpcaoSair, msgPrompt,
   msgSeparador, msgVoceEsta "Escritorio Secreto", msgSemSaida]

/-- The eight addresses of the sample map in post-order. -/
def enderecosExemplo : List Endereco :=
  [[.esq, .esq, .esq], [.esq, .esq], [.esq, .dir], [.esq],
   [.dir, .dir, .esq], [.dir, .dir], [.dir], []]

/-- What scenario B prints inside `explorarSalas` in its two iterations. -/
def saidaCenarioB : List String :=
  [msgSeparador, msgVoceEsta "Hall de Entrada", msgEscolha, msgOpcaoEsquerda "Sala de Estar",
   msgOpcaoDireita "Sala de Jantar", msgOpcaoSair, msgPrompt,
   msgSeparador, msgVoceEsta "Sala de Jantar", msgEscolha, msgOpcaoDireita "Cozinha",
   msgOpcaoSair, msgPrompt, msgBloqueadoEsquerda]

/-- What scenario C prints inside `explorarSalas`. -/
def saidaCenarioC : List String :=
  [msgSeparador, msgVoceEsta "Hall de Entrada", msgEscolha, msgOpcaoEsquerda "Sala de Estar",
   msgOpcaoDireita "Sala de Jantar", msgOpcaoSair, msgPrompt, msgSair]

/-- What scenario D prints inside `explorarSalas`. -/
def saidaCenarioD : List String :=
  [msgSeparador, msgVoceEsta "Hall de Entrada", msgEscolha, msgOpcaoEsquerda "Sala de Estar",
   msgOpcaoDireita "Sala de Jantar", msgOpcaoSair, msgPrompt,
   msgSeparador, msgVoceEsta "Sala de Jantar", msgEscolha, msgOpcaoDireita "Cozinha",
   msgOpcaoSair, msgPrompt,
   msgSeparador, msgVoceEsta "Cozinha", msgEscolha, msgOpcaoEsquerda "Despensa",
   msgOpcaoSair, msgPrompt,
   msgSeparador, msgVoceEsta "Despensa", msgSemSaida]

/-- The characters of an input that are not white space, in order. Two inputs that differ
only by white space put in or left out have the same image. -/
def naoBrancos (l : List Char) : List Char := l.filter (fun c => !isspace c)

/-- A state with the white space of its input left out. -/
def Estado.semBrancos (s : Estado) : Estado := { s with entrada := naoBrancos s.entrada }

/-- The outcome of an iteration with the white space of the input left out. -/
def Passo.semBrancos : Passo → Passo
  | .continua s => .continua s.semBrancos
  | .termina f s => .termina f s.semBrancos

/-- The room `b` is the room on the left or on the right path of `a`. -/
def Sala.filho (a b : Sala) : Prop := (b = a.esquerda ∨ b = a.direita) ∧ b.isNull = false

/-- The sequence of distinct current rooms of a run: the rooms of the successive
iterations with immediate repetitions (iterations that stay in the room) left out. -/
def distintas : List Sala → List Sala
  | [] => []
  | [a] => [a]
  | a :: b :: l => if a = b then distintas (b :: l) else a :: distintas (b :: l)

instance (a b : Sala) : Decidable (Sala.filho a b) := by
  unfold Sala.filho
  infer_instance

/-- What an iteration prints in Sala de Jantar when the choice is `e`: the header, the
menu and the blocked message of the left side. -/
def blocoJantar : List String :=
  [msgSeparador, msgVoceEsta "Sala de Jantar", msgEscolha, msgOpcaoDireita "Cozinha",
   msgOpcaoSair, msgPrompt, msgBloqueadoEsquerda]

/-- The names of the rooms of a tree: the room, then its left and its right subtree. -/
def Sala.nomes : Sala → List String
  | .NULL => []
  | .mk n e d => n :: (Sala.nomes e ++ Sala.nomes d)

/-! ## Auxiliary facts -/

@[simp] theorem isNull_NULL : Sala.NULL.isNull = true := rfl
@[simp] theorem isNull_mk (n : String) (e d : Sala) : (Sala.mk n e d).isNull = false := rfl
@[simp] theorem nome_mk (n : String) (e d : Sala) : (Sala.mk n e d).nome = n := rfl
@[simp] theorem esquerda_mk (n : String) (e d : Sala) : (Sala.mk n e d).esquerda = e := rfl
@[simp] theorem direita_mk (n : String) (e d : Sala) : (Sala.mk n e d).direita = d := rfl

/-- The characters of a message, used to tell messages apart. -/
theorem data_ne {a b : String} (h : a.data ≠ b.data) : a ≠ b :=
  fun hab => h (congrArg String.data hab)

theorem msgOpcaoEsquerda_inj {n m : String} (h : msgOpcaoEsquerda n = msgOpcaoEsquerda m) :
    n = m := by
  have h1 := congrArg String.data h
  simp [msgOpcaoEsquerda, String.data_append] at h1
  exact String.ext h1

theorem msgOpcaoDireita_inj {n m : String} (h : msgOpcaoDireita n = msgOpcaoDireita m) :
    n = m := by
  have h1 := congrArg String.data h
  simp [msgOpcaoDireita, String.data_append] at h1
  exact String.ext h1

theorem msgOpcaoEsquerda_ne_direita (n m : String) : msgOpcaoEsquerda n ≠ msgOpcaoDireita m := by
  apply data_ne
  simp [msgOpcaoEsquerda, msgOpcaoDireita, String.data_append]

/-- A line offering the left path is none of the fixed menu lines. -/
theorem msgOpcaoEsquerda_ne_fixas (n : String) :
    msgOpcaoEsquerda n ≠ msgEscolha ∧ msgOpcaoEsquerda n ≠ msgOpcaoSair
      ∧ msgOpcaoEsquerda n ≠ msgPrompt := by
  refine ⟨?_, ?_, ?_⟩ <;> apply data_ne <;>
    simp [msgOpcaoEsquerda, msgEscolha, msgOpcaoSair, msgPrompt, String.data_append]

/-- A line offering the right path is none of the fixed menu lines. -/
theorem msgOpcaoDireita_ne_fixas (n : String) :
    msgOpcaoDireita n ≠ msgEscolha ∧ msgOpcaoDireita n ≠ msgOpcaoSair
      ∧ msgOpcaoDireita n ≠ msgPrompt := by
  refine ⟨?_, ?_, ?_⟩ <;> apply data_ne <;>
    simp [msgOpcaoDireita, msgEscolha, msgOpcaoSair, msgPrompt, String.data_append]

/-- Every line of a menu is one of the five menu messages. -/
theorem mem_menu {sala : Sala} {m : String} (h : m ∈ menu sala) :
    m = msgEscolha ∨ m = msgOpcaoEsquerda sala.esquerda.nome
      ∨ m = msgOpcaoDireita sala.direita.nome ∨ m = msgOpcaoSair ∨ m = msgPrompt := by
  unfold menu at h
  simp only [List.mem_append, List.mem_cons, List.mem_singleton, List.not_mem_nil,
    or_false] at h
  rcases h with ((h | h) | h) | h
  · exact Or.inl h
  · split at h
    · simp at h
    · simp at h; exact Or.inr (Or.inl h)
  · split at h
    · simp at h
    · simp at h; exact Or.inr (Or.inr (Or.inl h))
  · rcases h with h | h
    · exact Or.inr (Or.inr (Or.inr (Or.inl h)))
    · exact Or.inr (Or.inr (Or.inr (Or.inr h)))

/-- The header of an iteration (separator and room name) and the menu hold no message
of refusal. -/
theorem cabecalho_menu_sem_recusa (nome : String) (sala : Sala) :
    ∀ m ∈ [msgSeparador, msgVoceEsta nome] ++ menu sala, m ∉ mensagensDeRecusa := by
  intro m hm
  have hcases : m = msgSeparador ∨ m = msgVoceEsta nome ∨ m = msgEscolha
      ∨ m = msgOpcaoEsquerda sala.esquerda.nome ∨ m = msgOpcaoDireita sala.direita.nome
      ∨ m = msgOpcaoSair ∨ m = msgPrompt := by
    simp only [List.mem_append, List.mem_cons, List.mem_singleton, List.not_mem_nil,
      or_false] at hm
    rcases hm with (h | h) | h
    · exact Or.inl h
    · exact Or.inr (Or.inl h)
    · exact Or.inr (Or.inr (mem_menu h))
  simp only [mensagensDeRecusa, List.mem_cons, List.mem_singleton, List.not_mem_nil,
    or_false, not_or]
  rcases hcases with h | h | h | h | h | h | h <;> subst h <;>
    refine ⟨?_, ?_, ?_⟩ <;> apply data_ne <;>
    simp [msgSeparador, msgVoceEsta, msgEscolha, msgOpcaoEsquerda, msgOpcaoDireita,
      msgOpcaoSair, msgPrompt, msgBloqueadoEsquerda, msgBloqueadoDireita, msgInvalida,
      String.data_append]

/-- White space is skipped and the first other character is the one read. -/
theorem scanf_brancos (esc : Char) (ws : List Char) (c : Char) (rest : List Char)
    (hws : ∀ x ∈ ws, isspace x = true) (hc : isspace c = false) :
    scanf esc (ws ++ c :: rest) = (c, rest) := by
  induction ws with
  | nil => simp [scanf, hc]
  | cons x xs ih =>
    have hx : isspace x = true := hws x (List.mem_cons_self x xs)
    have hxs : ∀ y ∈ xs, isspace y = true := fun y hy => hws y (List.mem_cons_of_mem x hy)
    simp [scanf, hx, ih hxs]

/-- An iteration in a room with a path prints the header and the menu, reads the choice
and dispatches it. -/
theorem iteracao_com_saida (nome : String) (e d : Sala) (esc : Char) (ent : List Char)
    (out : List String) (h : (e.isNull && d.isNull) = false) :
    iteracao ⟨.mk nome e d, esc, ent, out⟩
      = processar ⟨.mk nome e d, (scanf esc ent).1, (scanf esc ent).2,
          out ++ [msgSeparador, msgVoceEsta nome] ++ menu (.mk nome e d)⟩ := by
  unfold iteracao
  simp [h]

/-- The switch on each kind of choice, in a room given by its fields. -/
theorem processar_esquerda (nome : String) (e d : Sala) (c : Char) (rest : List Char)
    (out : List String) (hc : c = 'e' ∨ c = 'E') :
    processar ⟨.mk nome e d, c, rest, out⟩
      = if e.isNull then .continua ⟨.mk nome e d, c, rest, out ++ [msgBloqueadoEsquerda]⟩
        else .continua ⟨e, c, rest, out⟩ := by
  rcases hc with hc | hc <;> subst hc <;> cases e <;> simp [processar]

theorem processar_direita (nome : String) (e d : Sala) (c : Char) (rest : List Char)
    (out : List String) (hc : c = 'd' ∨ c = 'D') :
    processar ⟨.mk nome e d, c, rest, out⟩
      = if d.isNull then .continua ⟨.mk nome e d, c, rest, out ++ [msgBloqueadoDireita]⟩
        else .continua ⟨d, c, rest, out⟩ := by
  rcases hc with hc | hc <;> subst hc <;> cases d <;> simp [processar]

theorem processar_sair (sala : Sala) (c : Char) (rest : List Char)
    (out : List String) (hc : c = 's' ∨ c = 'S') :
    processar ⟨sala, c, rest, out⟩ = .termina .Exited ⟨sala, c, rest, out ++ [msgSair]⟩ := by
  rcases hc with hc | hc <;> subst hc <;> simp [processar]

theorem processar_invalida (sala : Sala) (c : Char) (rest : List Char)
    (out : List String)
    (hc : c ≠ 'e' ∧ c ≠ 'E' ∧ c ≠ 'd' ∧ c ≠ 'D' ∧ c ≠ 's' ∧ c ≠ 'S') :
    processar ⟨sala, c, rest, out⟩ = .continua ⟨sala, c, rest, out ++ [msgInvalida]⟩ := by
  obtain ⟨h1, h2, h3, h4, h5, h6⟩ := hc
  simp [processar, h1, h2, h3, h4, h5, h6]

/-- In a room with a path, whatever the choice, the output of an iteration starts with
the output so far, the header of the room and its menu, followed by at most one message. -/
theorem iteracao_reapresenta (nome : String) (e d : Sala) (esc : Char) (ent : List Char)
    (out : List String) (h : (e.isNull && d.isNull) = false) :
    ∃ fim : List String, fim.length ≤ 1 ∧
      (iteracao ⟨.mk nome e d, esc, ent, out⟩).estado.saida
        = out ++ [msgSeparador, msgVoceEsta nome] ++ menu (.mk nome e d) ++ fim := by
  rw [iteracao_com_saida nome e d esc ent out h]
  generalize (scanf esc ent).1 = c
  generalize (scanf esc ent).2 = rest
  by_cases h1 : c = 'e' ∨ c = 'E'
  · rw [processar_esquerda _ _ _ _ _ _ h1]
    split
    · exact ⟨[msgBloqueadoEsquerda], by simp, rfl⟩
    · exact ⟨[], by simp, by simp [Passo.estado]⟩
  · by_cases h2 : c = 'd' ∨ c = 'D'
    · rw [processar_direita _ _ _ _ _ _ h2]
      split
      · exact ⟨[msgBloqueadoDireita], by simp, rfl⟩
      · exact ⟨[], by simp, by simp [Passo.estado]⟩
    · by_cases h3 : c = 's' ∨ c = 'S'
      · rw [processar_sair _ _ _ _ h3]
        exact ⟨[msgSair], by simp, rfl⟩
      · rw [processar_invalida _ _ _ _ (by
          simp only [not_or] at h1 h2 h3
          exact ⟨h1.1, h1.2, h2.1, h2.2, h3.1, h3.2⟩)]
        exact ⟨[msgInvalida], by simp, rfl⟩

/-- An iteration in a room without paths ends the loop in `DeadEnd`. -/
theorem iteracao_sem_saida (nome : String) (esc : Char) (ent : List Char) (out : List String) :
    iteracao ⟨.mk nome .NULL .NULL, esc, ent, out⟩
      = .termina .DeadEnd ⟨.mk nome .NULL .NULL, esc, ent,
          out ++ [msgSeparador, msgVoceEsta nome, msgSemSaida]⟩ := by
  simp [iteracao]

theorem montarMapa_ok (k : Nat) (out : List String) :
    montarMapa ⟨k + 8, out⟩ = .ok mapaExemplo ⟨k, out⟩ := by
  rfl

theorem passo_e (nome : String) (e d : Sala) (esc : Char) (ws rest : List Char) (c : Char)
    (out : List String) (hws : ∀ x ∈ ws, isspace x = true) (hc : isspace c = false)
    (h : (e.isNull && d.isNull) = false) :
    iteracao ⟨.mk nome e d, esc, ws ++ c :: rest, out⟩
      = processar ⟨.mk nome e d, c, rest,
          out ++ [msgSeparador, msgVoceEsta nome] ++ menu (.mk nome e d)⟩ := by
  rw [iteracao_com_saida nome e d esc _ out h, scanf_brancos esc ws c rest hws hc]


theorem laco_continua {s s1 : Estado} (n : Nat) (h : iteracao s = .continua s1) :
    laco (n + 1) s = laco n s1 := by
  simp [laco, h]

theorem laco_termina {s s1 : Estado} {f : Fim} (n : Nat) (h : iteracao s = .termina f s1) :
    laco (n + 1) s = some (f, s1) := by
  simp [laco, h]

theorem trajeto_continua {s s1 : Estado} (n : Nat) (h : iteracao s = .continua s1) :
    trajeto (n + 1) s = s :: trajeto n s1 := by
  simp [trajeto, h]

theorem trajeto_termina {s s1 : Estado} {f : Fim} (n : Nat) (h : iteracao s = .termina f s1) :
    trajeto (n + 1) s = [s] := by
  simp [trajeto, h]

theorem passo_esquerda (nome n2 : String) (e2 d2 d : Sala) (esc : Char) (ws rest : List Char)
    (c : Char) (out : List String) (hws : ∀ x ∈ ws, isspace x = true)
    (hc : c = 'e' ∨ c = 'E') :
    iteracao ⟨.mk nome (.mk n2 e2 d2) d, esc, ws ++ c :: rest, out⟩
      = .continua ⟨.mk n2 e2 d2, c, rest,
          out ++ [msgSeparador, msgVoceEsta nome] ++ menu (.mk nome (.mk n2 e2 d2) d)⟩ := by
  have hsp : isspace c = false := by rcases hc with h | h <;> subst h <;> decide
  rw [passo_e nome _ d esc ws rest c out hws hsp (by simp), processar_esquerda _ _ _ _ _ _ hc]
  simp

theorem liberarArvore_eq (t : Sala) : ∀ (a : Endereco) (log : List Endereco),
    liberarArvore t a log = log ++ posOrdem t a := by
  induction t with
  | NULL => intro a log; simp [liberarArvore, posOrdem]
  | mk n e d ihe ihd =>
    intro a log
    simp [liberarArvore, posOrdem, ihe, ihd, List.append_assoc]

theorem length_posOrdem (t : Sala) : ∀ a : Endereco, (posOrdem t a).length = t.contar := by
  induction t with
  | NULL => intro a; simp [posOrdem, Sala.contar]
  | mk n e d ihe ihd => intro a; simp [posOrdem, Sala.contar, ihe, ihd, Nat.add_assoc]

theorem em_NULL (q : Endereco) : Sala.NULL.em q = Sala.NULL := by
  induction q with
  | nil => rfl
  | cons l q ih => cases l <;> simpa [Sala.em, Sala.esquerda, Sala.direita] using ih

theorem mem_posOrdem (t : Sala) : ∀ (a p : Endereco),
    p ∈ posOrdem t a ↔ ∃ q, p = a ++ q ∧ (t.em q).isNull = false := by
  induction t with
  | NULL => intro a p; simp [posOrdem, em_NULL]
  | mk n e d ihe ihd =>
    intro a p
    simp only [posOrdem, List.mem_append, List.mem_singleton, ihe, ihd]
    constructor
    · rintro ((⟨q, rfl, hq⟩ | ⟨q, rfl, hq⟩) | rfl)
      · exact ⟨Lado.esq :: q, by simp, by simpa [Sala.em] using hq⟩
      · exact ⟨Lado.dir :: q, by simp, by simpa [Sala.em] using hq⟩
      · exact ⟨[], by simp, by simp [Sala.em]⟩
    · rintro ⟨q, rfl, hq⟩
      match q, hq with
      | [], _ => right; simp
      | Lado.esq :: q, hq => left; left; exact ⟨q, by simp, by simpa [Sala.em] using hq⟩
      | Lado.dir :: q, hq => left; right; exact ⟨q, by simp, by simpa [Sala.em] using hq⟩

theorem nodup_posOrdem (t : Sala) : ∀ a : Endereco, (posOrdem t a).Nodup := by
  induction t with
  | NULL => intro a; simp [posOrdem]
  | mk n e d ihe ihd =>
    intro a
    simp only [posOrdem]
    rw [List.nodup_append, List.nodup_append]
    refine ⟨⟨ihe _, ihd _, ?_⟩, List.nodup_singleton a, ?_⟩
    · intro p hp1 hp2
      obtain ⟨q1, h1, -⟩ := (mem_posOrdem e _ p).1 hp1
      obtain ⟨q2, h2, -⟩ := (mem_posOrdem d _ p).1 hp2
      rw [h1] at h2
      simp at h2
    · intro p hp1 hp2
      simp only [List.mem_singleton] at hp2
      subst hp2
      rcases List.mem_append.1 hp1 with h | h
      · obtain ⟨q1, h1, -⟩ := (mem_posOrdem e _ p).1 h
        have := congrArg List.length h1
        simp at this
      · obtain ⟨q1, h1, -⟩ := (mem_posOrdem d _ p).1 h
        have := congrArg List.length h1
        simp at this

/-- In the post-order list a room comes after every room below it. -/
theorem posOrdem_filhos_antes (t : Sala) : ∀ (a p q : Endereco),
    p ∈ posOrdem t a → q ∈ posOrdem t a → q <+: p → q ≠ p →
    ∃ l1 l2 l3, posOrdem t a = l1 ++ p :: (l2 ++ q :: l3) := by
  induction t with
  | NULL => intro a p q hp; simp [posOrdem] at hp
  | mk n e d ihe ihd =>
    intro a p q hp hq hpre hne
    simp only [posOrdem, List.mem_append, List.mem_singleton] at hp hq
    have hpa : p ≠ a → p ∈ posOrdem e (a ++ [Lado.esq]) ++ posOrdem d (a ++ [Lado.dir]) := by
      intro h
      rcases hp with (h1 | h1) | h1
      · exact List.mem_append.2 (Or.inl h1)
      · exact List.mem_append.2 (Or.inr h1)
      · exact absurd h1 h
    rcases hq with (hq | hq) | hq
    · -- `q` lies in the left subtree, hence so does `p`
      obtain ⟨q1, hq1, -⟩ := (mem_posOrdem e _ q).1 hq
      obtain ⟨r, hr⟩ := hpre
      have hp' : p ∈ posOrdem e (a ++ [Lado.esq]) := by
        rcases hp with (h1 | h1) | h1
        · exact h1
        · obtain ⟨q2, hq2, -⟩ := (mem_posOrdem d _ p).1 h1
          rw [← hr, hq1] at hq2
          simp at hq2
        · have := congrArg List.length hr
          rw [hq1, h1] at this
          simp at this
      obtain ⟨l1, l2, l3, h⟩ := ihe _ p q hp' hq ⟨r, hr⟩ hne
      exact ⟨l1, l2, l3 ++ posOrdem d (a ++ [Lado.dir]) ++ [a], by simp [posOrdem, h]⟩
    · obtain ⟨q1, hq1, -⟩ := (mem_posOrdem d _ q).1 hq
      obtain ⟨r, hr⟩ := hpre
      have hp' : p ∈ posOrdem d (a ++ [Lado.dir]) := by
        rcases hp with (h1 | h1) | h1
        · obtain ⟨q2, hq2, -⟩ := (mem_posOrdem e _ p).1 h1
          rw [← hr, hq1] at hq2
          simp at hq2
        · exact h1
        · have := congrArg List.length hr
          rw [hq1, h1] at this
          simp at this
      obtain ⟨l1, l2, l3, h⟩ := ihd _ p q hp' hq ⟨r, hr⟩ hne
      exact ⟨posOrdem e (a ++ [Lado.esq]) ++ l1, l2, l3 ++ [a], by simp [posOrdem, h]⟩
    · subst hq
      have hp' := hpa (fun h => hne h.symm)
      obtain ⟨l1, l2, h⟩ := List.append_of_mem hp'
      exact ⟨l1, l2, [], by simp only [posOrdem]; rw [h]; simp⟩

theorem semCaixa_casos (c : Char) :
    (c = 'E' ∧ semCaixa c = 'e') ∨ (c = 'D' ∧ semCaixa c = 'd') ∨ (c = 'S' ∧ semCaixa c = 's')
      ∨ (c ≠ 'E' ∧ c ≠ 'D' ∧ c ≠ 'S' ∧ semCaixa c = c) := by
  unfold semCaixa
  by_cases h1 : c = 'E'
  · left; subst h1; decide
  · by_cases h2 : c = 'D'
    · right; left; subst h2; decide
    · by_cases h3 : c = 'S'
      · right; right; left; subst h3; decide
      · right; right; right; simp [h1, h2, h3]

theorem isspace_semCaixa (c : Char) : isspace (semCaixa c) = isspace c := by
  rcases semCaixa_casos c with ⟨h, h'⟩ | ⟨h, h'⟩ | ⟨h, h'⟩ | ⟨-, -, -, h'⟩
  · rw [h', h]; decide
  · rw [h', h]; decide
  · rw [h', h]; decide
  · rw [h']

theorem scanf_semCaixa (esc : Char) (ent : List Char) :
    scanf (semCaixa esc) (ent.map semCaixa)
      = (semCaixa (scanf esc ent).1, (scanf esc ent).2.map semCaixa) := by
  induction ent with
  | nil => simp [scanf]
  | cons c cs ih =>
    simp only [List.map_cons, scanf, isspace_semCaixa]
    split
    · exact ih
    · rfl

theorem semCaixa_e (c : Char) : (semCaixa c = 'e' ∨ semCaixa c = 'E') ↔ (c = 'e' ∨ c = 'E') := by
  rcases semCaixa_casos c with ⟨h, h'⟩ | ⟨h, h'⟩ | ⟨h, h'⟩ | ⟨-, -, -, h'⟩
  · rw [h', h]; decide
  · rw [h', h]; decide
  · rw [h', h]; decide
  · rw [h']

theorem semCaixa_d (c : Char) : (semCaixa c = 'd' ∨ semCaixa c = 'D') ↔ (c = 'd' ∨ c = 'D') := by
  rcases semCaixa_casos c with ⟨h, h'⟩ | ⟨h, h'⟩ | ⟨h, h'⟩ | ⟨-, -, -, h'⟩
  · rw [h', h]; decide
  · rw [h', h]; decide
  · rw [h', h]; decide
  · rw [h']

theorem semCaixa_s (c : Char) : (semCaixa c = 's' ∨ semCaixa c = 'S') ↔ (c = 's' ∨ c = 'S') := by
  rcases semCaixa_casos c with ⟨h, h'⟩ | ⟨h, h'⟩ | ⟨h, h'⟩ | ⟨-, -, -, h'⟩
  · rw [h', h]; decide
  · rw [h', h]; decide
  · rw [h', h]; decide
  · rw [h']

theorem processar_semCaixa (s : Estado) : processar s.semCaixa = (processar s).semCaixa := by
  obtain ⟨sala, c, ent, out⟩ := s
  simp only [processar, Estado.semCaixa, semCaixa_e, semCaixa_d, semCaixa_s]
  split_ifs <;> rfl

theorem iteracao_semCaixa (s : Estado) : iteracao s.semCaixa = (iteracao s).semCaixa := by
  obtain ⟨sala, c, ent, out⟩ := s
  cases sala with
  | NULL => simp [iteracao, Estado.semCaixa, Passo.semCaixa]
  | mk n e d =>
    cases h : (e.isNull && d.isNull)
    · rw [iteracao_com_saida n e d c ent out h]
      have := iteracao_com_saida n e d (semCaixa c) (ent.map semCaixa) out h
      simp only [Estado.semCaixa]
      rw [this, scanf_semCaixa, ← processar_semCaixa]
      rfl
    · simp [iteracao, Estado.semCaixa, Passo.semCaixa, h]

theorem laco_semCaixa (fuel : Nat) : ∀ s : Estado,
    laco fuel s.semCaixa = (laco fuel s).map (fun r => (r.1, r.2.semCaixa)) := by
  induction fuel with
  | zero => intro s; simp [laco]
  | succ n ih =>
    intro s
    simp only [laco, iteracao_semCaixa]
    cases h : iteracao s with
    | continua s1 => simpa [Passo.semCaixa] using ih s1
    | termina f s1 => simp [Passo.semCaixa]

theorem trajeto_semCaixa (fuel : Nat) : ∀ s : Estado,
    trajeto fuel s.semCaixa = (trajeto fuel s).map Estado.semCaixa := by
  induction fuel with
  | zero => intro s; simp [trajeto]
  | succ n ih =>
    intro s
    simp only [trajeto, iteracao_semCaixa]
    cases h : iteracao s with
    | continua s1 => simpa [Passo.semCaixa] using ih s1
    | termina f s1 => simp [Passo.semCaixa]

/-- With room for the eight rooms, `main` builds the sample map, explores it, releases it
and returns 0. -/
theorem main_com_memoria (fuel k : Nat) (esc : Char) (ent : List Char) :
    main fuel (k + 8) esc ent
      = (explorarSalas fuel mapaExemplo esc ent [msgBemVindo, msgIntro]).map
          (fun r => ⟨0, r.2.saida ++ [msgEncerrado], r.2.entrada,
            liberarArvore mapaExemplo [] []⟩) := by
  unfold main
  rw [montarMapa_ok]
  simp only [List.nil_append]
  cases explorarSalas fuel mapaExemplo esc ent [msgBemVindo, msgIntro] with
  | none => rfl
  | some r => rfl

/-- The walk of scenario A from any output so far: three choices `e`, each after any
white space, lead from the hall to `Escritorio Secreto`. -/
theorem cenarioA_passos (esc0 : Char) (ws1 ws2 ws3 rest : List Char) (out : List String)
    (fuel : Nat) (h1 : ∀ x ∈ ws1, isspace x = true) (h2 : ∀ x ∈ ws2, isspace x = true)
    (h3 : ∀ x ∈ ws3, isspace x = true) :
    laco (fuel + 4) ⟨mapaExemplo, esc0, ws1 ++ 'e' :: (ws2 ++ 'e' :: (ws3 ++ 'e' :: rest)), out⟩
        = some (.DeadEnd, ⟨.mk "Escritorio Secreto" .NULL .NULL, 'e', rest,
            out ++ saidaCenarioA⟩)
      ∧ (trajeto (fuel + 4)
            ⟨mapaExemplo, esc0, ws1 ++ 'e' :: (ws2 ++ 'e' :: (ws3 ++ 'e' :: rest)), out⟩).map
          (fun s => s.salaAtual.nome)
          = ["Hall de Entrada", "Sala de Estar", "Biblioteca", "Escritorio Secreto"] := by
  have s1 := passo_esquerda "Hall de Entrada" "Sala de Estar" mapaExemplo.esquerda.esquerda
    mapaExemplo.esquerda.direita mapaExemplo.direita esc0 ws1
    (ws2 ++ 'e' :: (ws3 ++ 'e' :: rest)) 'e' out h1 (Or.inl rfl)
  have s2 := passo_esquerda "Sala de Estar" "Biblioteca" mapaExemplo.esquerda.esquerda.esquerda
    .NULL mapaExemplo.esquerda.direita 'e' ws2 (ws3 ++ 'e' :: rest) 'e'
    (out ++ [msgSeparador, msgVoceEsta "Hall de Entrada"] ++ menu mapaExemplo) h2 (Or.inl rfl)
  have s3 := passo_esquerda "Biblioteca" "Escritorio Secreto" .NULL .NULL .NULL 'e' ws3 rest 'e'
    (out ++ [msgSeparador, msgVoceEsta "Hall de Entrada"] ++ menu mapaExemplo
      ++ [msgSeparador, msgVoceEsta "Sala de Estar"] ++ menu mapaExemplo.esquerda) h3 (Or.inl rfl)
  have s4 := iteracao_sem_saida "Escritorio Secreto" 'e' rest
    (out ++ [msgSeparador, msgVoceEsta "Hall de Entrada"] ++ menu mapaExemplo
      ++ [msgSeparador, msgVoceEsta "Sala de Estar"] ++ menu mapaExemplo.esquerda
      ++ [msgSeparador, msgVoceEsta "Biblioteca"] ++ menu mapaExemplo.esquerda.esquerda)
  have hout : out ++ [msgSeparador, msgVoceEsta "Hall de Entrada"] ++ menu mapaExemplo
      ++ [msgSeparador, msgVoceEsta "Sala de Estar"] ++ menu mapaExemplo.esquerda
      ++ [msgSeparador, msgVoceEsta "Biblioteca"] ++ menu mapaExemplo.esquerda.esquerda
      ++ [msgSeparador, msgVoceEsta "Escritorio Secreto", msgSemSaida]
      = out ++ saidaCenarioA := by
    have e1 : menu mapaExemplo = [msgEscolha, msgOpcaoEsquerda "Sala de Estar",
      msgOpcaoDireita "Sala de Jantar", msgOpcaoSair, msgPrompt] := rfl
    have e2 : menu mapaExemplo.esquerda = [msgEscolha, msgOpcaoEsquerda "Biblioteca",
      msgOpcaoDireita "Jardim de Inverno", msgOpcaoSair, msgPrompt] := rfl
    have e3 : menu mapaExemplo.esquerda.esquerda
      = [msgEscolha, msgOpcaoEsquerda "Escritorio Secreto", msgOpcaoSair, msgPrompt] := rfl
    rw [e1, e2, e3]
    simp [saidaCenarioA]
  rw [hout] at s4
  constructor
  · exact (laco_continua (fuel + 3) s1).trans ((laco_continua (fuel + 2) s2).trans
      ((laco_continua (fuel + 1) s3).trans (laco_termina fuel s4)))
  · have t := (trajeto_continua (fuel + 3) s1).trans (congrArg _
      ((trajeto_continua (fuel + 2) s2).trans (congrArg _
        ((trajeto_continua (fuel + 1) s3).trans (congrArg _ (trajeto_termina fuel s4))))))
    exact congrArg (List.map (fun s : Estado => s.salaAtual.nome)) t

theorem trajeto_um (s : Estado) : trajeto 1 s = [s] := by
  unfold trajeto
  cases iteracao s <;> simp [trajeto]

theorem passo_direita (nome n2 : String) (e2 d2 e : Sala) (esc : Char) (ws rest : List Char)
    (c : Char) (out : List String) (hws : ∀ x ∈ ws, isspace x = true)
    (hc : c = 'd' ∨ c = 'D') :
    iteracao ⟨.mk nome e (.mk n2 e2 d2), esc, ws ++ c :: rest, out⟩
      = .continua ⟨.mk n2 e2 d2, c, rest,
          out ++ [msgSeparador, msgVoceEsta nome] ++ menu (.mk nome e (.mk n2 e2 d2))⟩ := by
  have hsp : isspace c = false := by rcases hc with h | h <;> subst h <;> decide
  rw [passo_e nome e _ esc ws rest c out hws hsp (by simp), processar_direita _ _ _ _ _ _ hc]
  simp

theorem passo_bloqueado_esquerda (nome : String) (d : Sala) (esc : Char) (ws rest : List Char)
    (c : Char) (out : List String) (hws : ∀ x ∈ ws, isspace x = true)
    (hc : c = 'e' ∨ c = 'E') (hd : d.isNull = false) :
    iteracao ⟨.mk nome .NULL d, esc, ws ++ c :: rest, out⟩
      = .continua ⟨.mk nome .NULL d, c, rest,
          out ++ [msgSeparador, msgVoceEsta nome] ++ menu (.mk nome .NULL d)
            ++ [msgBloqueadoEsquerda]⟩ := by
  have hsp : isspace c = false := by rcases hc with h | h <;> subst h <;> decide
  rw [passo_e nome .NULL d esc ws rest c out hws hsp (by simp [hd]),
    processar_esquerda _ _ _ _ _ _ hc]
  simp

theorem passo_sair (nome : String) (e d : Sala) (esc : Char) (ws rest : List Char)
    (c : Char) (out : List String) (hws : ∀ x ∈ ws, isspace x = true)
    (hc : c = 's' ∨ c = 'S') (h : (e.isNull && d.isNull) = false) :
    iteracao ⟨.mk nome e d, esc, ws ++ c :: rest, out⟩
      = .termina .Exited ⟨.mk nome e d, c, rest,
          out ++ [msgSeparador, msgVoceEsta nome] ++ menu (.mk nome e d) ++ [msgSair]⟩ := by
  have hsp : isspace c = false := by rcases hc with h | h <;> subst h <;> decide
  rw [passo_e nome e d esc ws rest c out hws hsp h, processar_sair _ _ _ _ hc]

theorem menu_hall : menu mapaExemplo = [msgEscolha, msgOpcaoEsquerda "Sala de Estar",
    msgOpcaoDireita "Sala de Jantar", msgOpcaoSair, msgPrompt] := rfl

theorem menu_jantar : menu mapaExemplo.direita
    = [msgEscolha, msgOpcaoDireita "Cozinha", msgOpcaoSair, msgPrompt] := rfl

theorem menu_cozinha : menu mapaExemplo.direita.direita
    = [msgEscolha, msgOpcaoEsquerda "Despensa", msgOpcaoSair, msgPrompt] := rfl

/-- The two steps of scenario B from any output so far. -/
theorem cenarioB_passos (esc0 : Char) (ws1 ws2 rest : List Char) (out : List String)
    (h1 : ∀ x ∈ ws1, isspace x = true) (h2 : ∀ x ∈ ws2, isspace x = true) :
    iteracao ⟨mapaExemplo, esc0, ws1 ++ 'd' :: (ws2 ++ 'e' :: rest), out⟩
        = .continua ⟨mapaExemplo.direita, 'd', ws2 ++ 'e' :: rest,
            out ++ [msgSeparador, msgVoceEsta "Hall de Entrada"] ++ menu mapaExemplo⟩
      ∧ iteracao ⟨mapaExemplo.direita, 'd', ws2 ++ 'e' :: rest,
            out ++ [msgSeparador, msgVoceEsta "Hall de Entrada"] ++ menu mapaExemplo⟩
        = .continua ⟨mapaExemplo.direita, 'e', rest, out ++ saidaCenarioB⟩ := by
  have s1 := passo_direita "Hall de Entrada" "Sala de Jantar" .NULL mapaExemplo.direita.direita
    mapaExemplo.esquerda esc0 ws1 (ws2 ++ 'e' :: rest) 'd' out h1 (Or.inl rfl)
  have s2 := passo_bloqueado_esquerda "Sala de Jantar" mapaExemplo.direita.direita 'd' ws2 rest
    'e' (out ++ [msgSeparador, msgVoceEsta "Hall de Entrada"] ++ menu mapaExemplo) h2
    (Or.inl rfl) rfl
  have hout : out ++ [msgSeparador, msgVoceEsta "Hall de Entrada"] ++ menu mapaExemplo
      ++ [msgSeparador, msgVoceEsta "Sala de Jantar"] ++ menu mapaExemplo.direita
      ++ [msgBloqueadoEsquerda] = out ++ saidaCenarioB := by
    rw [menu_hall, menu_jantar]
    simp [saidaCenarioB]
  exact ⟨s1, s2.trans (by rw [← hout]; rfl)⟩

/-- The walk of scenario D from any output so far. -/
theorem cenarioD_passos (esc0 : Char) (ws1 ws2 ws3 rest : List Char) (out : List String)
    (fuel : Nat) (h1 : ∀ x ∈ ws1, isspace x = true) (h2 : ∀ x ∈ ws2, isspace x = true)
    (h3 : ∀ x ∈ ws3, isspace x = true) :
    laco (fuel + 4) ⟨mapaExemplo, esc0, ws1 ++ 'd' :: (ws2 ++ 'd' :: (ws3 ++ 'e' :: rest)), out⟩
        = some (.DeadEnd, ⟨.mk "Despensa" .NULL .NULL, 'e', rest, out ++ saidaCenarioD⟩)
      ∧ (trajeto (fuel + 4)
            ⟨mapaExemplo, esc0, ws1 ++ 'd' :: (ws2 ++ 'd' :: (ws3 ++ 'e' :: rest)), out⟩).map
          (fun s => s.salaAtual.nome)
          = ["Hall de Entrada", "Sala de Jantar", "Cozinha", "Despensa"] := by
  have s1 := passo_direita "Hall de Entrada" "Sala de Jantar" .NULL mapaExemplo.direita.direita
    mapaExemplo.esquerda esc0 ws1 (ws2 ++ 'd' :: (ws3 ++ 'e' :: rest)) 'd' out h1 (Or.inl rfl)
  have s2 := passo_direita "Sala de Jantar" "Cozinha" mapaExemplo.direita.direita.esquerda .NULL
    .NULL 'd' ws2 (ws3 ++ 'e' :: rest) 'd'
    (out ++ [msgSeparador, msgVoceEsta "Hall de Entrada"] ++ menu mapaExemplo) h2 (Or.inl rfl)
  have s3 := passo_esquerda "Cozinha" "Despensa" .NULL .NULL .NULL 'd' ws3 rest 'e'
    (out ++ [msgSeparador, msgVoceEsta "Hall de Entrada"] ++ menu mapaExemplo
      ++ [msgSeparador, msgVoceEsta "Sala de Jantar"] ++ menu mapaExemplo.direita) h3 (Or.inl rfl)
  have s4 := iteracao_sem_saida "Despensa" 'e' rest
    (out ++ [msgSeparador, msgVoceEsta "Hall de Entrada"] ++ menu mapaExemplo
      ++ [msgSeparador, msgVoceEsta "Sala de Jantar"] ++ menu mapaExemplo.direita
      ++ [msgSeparador, msgVoceEsta "Cozinha"] ++ menu mapaExemplo.direita.direita)
  have hout : out ++ [msgSeparador, msgVoceEsta "Hall de Entrada"] ++ menu mapaExemplo
      ++ [msgSeparador, msgVoceEsta "Sala de Jantar"] ++ menu mapaExemplo.direita
      ++ [msgSeparador, msgVoceEsta "Cozinha"] ++ menu mapaExemplo.direita.direita
      ++ [msgSeparador, msgVoceEsta "Despensa", msgSemSaida]
      = out ++ saidaCenarioD := by
    rw [menu_hall, menu_jantar, menu_cozinha]
    simp [saidaCenarioD]
  rw [hout] at s4
  constructor
  · exact (laco_continua (fuel + 3) s1).trans ((laco_continua (fuel + 2) s2).trans
      ((laco_continua (fuel + 1) s3).trans (laco_termina fuel s4)))
  · have t := (trajeto_continua (fuel + 3) s1).trans (congrArg _
      ((trajeto_continua (fuel + 2) s2).trans (congrArg _
        ((trajeto_continua (fuel + 1) s3).trans (congrArg _ (trajeto_termina fuel s4))))))
    exact congrArg (List.map (fun s : Estado => s.salaAtual.nome)) t

theorem msgVoceEsta_inj {n m : String} (h : msgVoceEsta n = msgVoceEsta m) : n = m := by
  have h1 := congrArg String.data h
  simp [msgVoceEsta, String.data_append] at h1
  exact String.ext h1

/-- A line naming the current room is none of the other messages of the explorer. -/
theorem msgVoceEsta_ne_outras (n : String) :
    msgVoceEsta n ≠ msgSeparador ∧ msgVoceEsta n ≠ msgEscolha
      ∧ (∀ x, msgVoceEsta n ≠ msgOpcaoEsquerda x) ∧ (∀ x, msgVoceEsta n ≠ msgOpcaoDireita x)
      ∧ msgVoceEsta n ≠ msgOpcaoSair ∧ msgVoceEsta n ≠ msgPrompt ∧ msgVoceEsta n ≠ msgSair
      ∧ msgVoceEsta n ≠ msgSemSaida ∧ msgVoceEsta n ≠ msgBloqueadoEsquerda
      ∧ msgVoceEsta n ≠ msgBloqueadoDireita ∧ msgVoceEsta n ≠ msgInvalida := by
  refine ⟨?_, ?_, fun x => ?_, fun x => ?_, ?_, ?_, ?_, ?_, ?_, ?_, ?_⟩ <;> apply data_ne <;>
    simp [msgVoceEsta, msgSeparador, msgEscolha, msgOpcaoEsquerda, msgOpcaoDireita,
      msgOpcaoSair, msgPrompt, msgSair, msgSemSaida, msgBloqueadoEsquerda,
      msgBloqueadoDireita, msgInvalida, String.data_append]

/-- The single step of scenario C from any output so far. -/
theorem cenarioC_passo (esc0 : Char) (ws rest : List Char) (out : List String)
    (h : ∀ x ∈ ws, isspace x = true) :
    iteracao ⟨mapaExemplo, esc0, ws ++ 's' :: rest, out⟩
      = .termina .Exited ⟨mapaExemplo, 's', rest, out ++ saidaCenarioC⟩ := by
  have s1 := passo_sair "Hall de Entrada" mapaExemplo.esquerda mapaExemplo.direita esc0 ws rest
    's' out h (Or.inl rfl) rfl
  have hout : out ++ [msgSeparador, msgVoceEsta "Hall de Entrada"] ++ menu mapaExemplo
      ++ [msgSair] = out ++ saidaCenarioC := by
    rw [menu_hall]
    simp [saidaCenarioC]
  exact s1.trans (by rw [← hout]; rfl)

/-- Reading from an input without its white space gives the same character and leaves the
same characters other than white space. -/
theorem scanf_naoBrancos (esc : Char) (ent : List Char) :
    scanf esc (naoBrancos ent) = ((scanf esc ent).1, naoBrancos (scanf esc ent).2) := by
  induction ent with
  | nil => rfl
  | cons c cs ih =>
    cases hc : isspace c
    · simp [naoBrancos, scanf, hc]
    · have : naoBrancos (c :: cs) = naoBrancos cs := by simp [naoBrancos, hc]
      rw [this, ih]
      simp [scanf, hc]

/-- The character read is the first one that is not white space, when there is one, and
the old content of `escolha` otherwise; the rest of these characters is left. -/
theorem scanf_primeiro (esc : Char) (ent : List Char) :
    (scanf esc ent).1 = (naoBrancos ent).head?.getD esc
      ∧ naoBrancos (scanf esc ent).2 = (naoBrancos ent).tail := by
  induction ent with
  | nil => exact ⟨rfl, rfl⟩
  | cons c cs ih =>
    cases hc : isspace c
    · simp [naoBrancos, scanf, hc]
    · have : naoBrancos (c :: cs) = naoBrancos cs := by simp [naoBrancos, hc]
      rw [this]
      simpa [scanf, hc] using ih

/-- At the end of the input, white space apart, nothing is stored. -/
theorem scanf_fim (esc : Char) (ws : List Char) (hws : ∀ x ∈ ws, isspace x = true) :
    scanf esc ws = (esc, []) := by
  induction ws with
  | nil => rfl
  | cons x xs ih =>
    have hx : isspace x = true := hws x (List.mem_cons_self x xs)
    have hxs : ∀ y ∈ xs, isspace y = true := fun y hy => hws y (List.mem_cons_of_mem x hy)
    simp [scanf, hx, ih hxs]

theorem processar_semBrancos (s : Estado) :
    processar s.semBrancos = (processar s).semBrancos := by
  obtain ⟨sala, c, ent, out⟩ := s
  simp only [processar, Estado.semBrancos]
  split_ifs <;> rfl

theorem iteracao_semBrancos (s : Estado) :
    iteracao s.semBrancos = (iteracao s).semBrancos := by
  obtain ⟨sala, c, ent, out⟩ := s
  cases sala with
  | NULL => simp [iteracao, Estado.semBrancos, Passo.semBrancos]
  | mk n e d =>
    cases h : (e.isNull && d.isNull)
    · rw [iteracao_com_saida n e d c ent out h]
      have := iteracao_com_saida n e d c (naoBrancos ent) out h
      simp only [Estado.semBrancos]
      rw [this, scanf_naoBrancos, ← processar_semBrancos]
      rfl
    · simp [iteracao, Estado.semBrancos, Passo.semBrancos, h]

theorem laco_semBrancos (fuel : Nat) : ∀ s : Estado,
    laco fuel s.semBrancos = (laco fuel s).map (fun r => (r.1, r.2.semBrancos)) := by
  induction fuel with
  | zero => intro s; simp [laco]
  | succ n ih =>
    intro s
    simp only [laco, iteracao_semBrancos]
    cases h : iteracao s with
    | continua s1 => simpa [Passo.semBrancos] using ih s1
    | termina f s1 => simp [Passo.semBrancos]

theorem trajeto_semBrancos (fuel : Nat) : ∀ s : Estado,
    trajeto fuel s.semBrancos = (trajeto fuel s).map Estado.semBrancos := by
  induction fuel with
  | zero => intro s; simp [trajeto]
  | succ n ih =>
    intro s
    simp only [trajeto, iteracao_semBrancos]
    cases h : iteracao s with
    | continua s1 => simpa [Passo.semBrancos] using ih s1
    | termina f s1 => simp [Passo.semBrancos]

/-- The switch leaves the input alone and replaces `escolha` by nothing else. -/
theorem processar_estado (s : Estado) :
    (processar s).estado.escolha = s.escolha ∧ (processar s).estado.entrada = s.entrada := by
  unfold processar
  split_ifs <;> exact ⟨rfl, rfl⟩

/-- A relation that holds across every iteration that continues holds along the states
of a run. -/
theorem trajeto_chain (R : Estado → Estado → Prop)
    (hR : ∀ s s1, iteracao s = .continua s1 → R s s1) :
    ∀ (fuel : Nat) (s : Estado), List.Chain' R (trajeto fuel s) := by
  intro fuel
  induction fuel with
  | zero => intro s; simp [trajeto]
  | succ n ih =>
    intro s
    cases h : iteracao s with
    | continua s1 =>
      rw [trajeto_continua n h, List.chain'_cons']
      refine ⟨?_, ih s1⟩
      intro y hy
      cases n with
      | zero => simp [trajeto] at hy
      | succ m =>
        have : (trajeto (m + 1) s1).head? = some s1 := by simp [trajeto]
        rw [this] at hy
        simp at hy
        subst hy
        exact hR s s1 h
    | termina f s1 =>
      rw [trajeto_termina n h]
      exact List.chain'_singleton s

/-- Without room for the eight rooms, building the map ends in `exit(1)` after the error
message, at the first call of `criarSala` that finds no memory. -/
theorem montarMapa_falha (mem : Nat) (out : List String) (h : mem < 8) :
    montarMapa ⟨mem, out⟩ = .exit 1 ⟨0, out ++ [msgErroAlocacao]⟩ := by
  interval_cases mem <;> rfl

theorem main_sem_memoria (fuel mem : Nat) (esc : Char) (ent : List Char) (h : mem < 8) :
    main fuel mem esc ent = some ⟨1, [msgErroAlocacao], ent, []⟩ := by
  unfold main
  rw [montarMapa_falha mem [] h]
  rfl

/-- The switch keeps the room or moves to a room on one of its paths. -/
theorem processar_sala (s s1 : Estado) (h : processar s = .continua s1) :
    s1.salaAtual = s.salaAtual ∨ Sala.filho s.salaAtual s1.salaAtual := by
  unfold processar at h
  split_ifs at h with h1 h2 h3 h4 h5 <;> cases h
  · right; exact ⟨Or.inl rfl, by simpa using h2⟩
  · left; rfl
  · right; exact ⟨Or.inr rfl, by simpa using h4⟩
  · left; rfl
  · left; rfl

/-- An iteration that continues keeps the room or moves to a room on one of its paths. -/
theorem iteracao_sala (s s1 : Estado) (h : iteracao s = .continua s1) :
    s1.salaAtual = s.salaAtual ∨ Sala.filho s.salaAtual s1.salaAtual := by
  obtain ⟨sala, c, ent, out⟩ := s
  cases sala with
  | NULL => simp [iteracao] at h
  | mk n e d =>
    cases hp : (e.isNull && d.isNull)
    · rw [iteracao_com_saida n e d c ent out hp] at h
      have h2 := processar_sala _ _ h
      exact h2
    · simp [iteracao, hp] at h

theorem head_trajeto (fuel : Nat) (s : Estado) : (trajeto (fuel + 1) s).head? = some s := by
  simp [trajeto]

theorem head_distintas (l : List Sala) : (distintas l).head? = l.head? := by
  induction l with
  | nil => rfl
  | cons a l ih =>
    cases l with
    | nil => rfl
    | cons b l =>
      unfold distintas
      split_ifs with hab
      · rw [ih]; simp [hab]
      · rfl

/-- Leaving out the iterations that stay turns a run of stay-or-descend steps into a
downward path. -/
theorem chain_distintas (l : List Sala)
    (h : List.Chain' (fun a b => b = a ∨ Sala.filho a b) l) :
    List.Chain' Sala.filho (distintas l) := by
  induction l with
  | nil => simp [distintas]
  | cons a l ih =>
    cases l with
    | nil => simp [distintas]
    | cons b l =>
      rw [List.chain'_cons] at h
      unfold distintas
      split_ifs with hab
      · exact ih h.2
      · rw [List.chain'_cons']
        refine ⟨?_, ih h.2⟩
        intro y hy
        rw [head_distintas] at hy
        simp at hy
        subst hy
        rcases h.1 with h1 | h1
        · exact absurd h1.symm hab
        · exact h1

theorem filho_altura {a b : Sala} (h : Sala.filho a b) : b.altura + 1 ≤ a.altura := by
  obtain ⟨hb, hn⟩ := h
  cases a with
  | NULL => rcases hb with hb | hb <;> subst hb <;> simp [Sala.esquerda, Sala.direita] at hn
  | mk n e d =>
    simp only [esquerda_mk, direita_mk] at hb
    rcases hb with hb | hb <;> subst hb <;> simp [Sala.altura, hn]

theorem filho_contar {a b : Sala} (h : Sala.filho a b) : b.contar < a.contar := by
  obtain ⟨hb, hn⟩ := h
  cases a with
  | NULL => rcases hb with hb | hb <;> subst hb <;> simp [Sala.esquerda, Sala.direita] at hn
  | mk n e d =>
    simp only [esquerda_mk, direita_mk] at hb
    rcases hb with hb | hb <;> subst hb <;> simp [Sala.contar] <;> omega

/-- A downward path from a room has at most as many steps as the height of the room. -/
theorem chain_filho_length (l : List Sala) : ∀ a : Sala, List.Chain' Sala.filho (a :: l) →
    (a :: l).length ≤ a.altura + 1 := by
  induction l with
  | nil => intro a _; simp
  | cons b l ih =>
    intro a h
    rw [List.chain'_cons] at h
    have h1 := ih b h.2
    have h2 := filho_altura h.1
    simp only [List.length_cons] at h1 ⊢
    omega

/-- A downward path never comes back to a room. -/
theorem chain_filho_nodup (l : List Sala) (h : List.Chain' Sala.filho l) : l.Nodup := by
  have h1 : List.Chain' (fun a b : Sala => b.contar < a.contar) l :=
    h.imp (fun a b hab => filho_contar hab)
  haveI : IsTrans Sala (fun a b : Sala => b.contar < a.contar) :=
    ⟨fun a b c hab hbc => lt_trans hbc hab⟩
  have h2 := List.chain'_iff_pairwise.1 h1
  exact h2.imp (fun {a b} hab heq => by subst heq; exact lt_irrefl _ hab)

/-- Along a run every iteration keeps the room or moves to a room on one of its paths. -/
theorem salasVisitadas_chain (fuel : Nat) (s : Estado) :
    List.Chain' (fun a b => b = a ∨ Sala.filho a b) (salasVisitadas fuel s) := by
  unfold salasVisitadas
  rw [List.chain'_map]
  exact trajeto_chain _ (fun s s1 h => iteracao_sala s s1 h) fuel s

/-- An iteration that continues starts and ends in a room. -/
theorem iteracao_continua_sala (s s1 : Estado) (h : iteracao s = .continua s1) :
    s.salaAtual.isNull = false ∧ s1.salaAtual.isNull = false := by
  have hs : s.salaAtual.isNull = false := by
    cases hn : s.salaAtual.isNull
    · rfl
    · simp [iteracao, hn] at h
  refine ⟨hs, ?_⟩
  rcases iteracao_sala s s1 h with h1 | h1
  · rw [h1]; exact hs
  · exact h1.2

/-- An iteration that ends the loop: on a null pointer nothing happens; in a room the loop
ends by the `break` or by the `return`, in that room. -/
theorem iteracao_termina_casos (s s1 : Estado) (f : Fim) (h : iteracao s = .termina f s1) :
    (f = .SalaNula ∧ s.salaAtual.isNull = true ∧ s1 = s)
      ∨ ((f = .DeadEnd ∨ f = .Exited) ∧ s.salaAtual.isNull = false
          ∧ s1.salaAtual = s.salaAtual) := by
  obtain ⟨sala, c, ent, out⟩ := s
  cases sala with
  | NULL =>
    simp [iteracao] at h
    exact Or.inl ⟨h.1.symm, rfl, h.2.symm⟩
  | mk n e d =>
    right
    cases hp : (e.isNull && d.isNull)
    · rw [iteracao_com_saida n e d c ent out hp] at h
      unfold processar at h
      split_ifs at h
      cases h
      exact ⟨Or.inr rfl, rfl, rfl⟩
    · simp [iteracao, hp] at h
      obtain ⟨hf, hs⟩ := h
      subst hf hs
      exact ⟨Or.inl rfl, rfl, rfl⟩

/-- Along a run that starts in a room the current room is never the null pointer. -/
theorem trajeto_sala (fuel : Nat) : ∀ s : Estado, s.salaAtual.isNull = false →
    ∀ t ∈ trajeto fuel s, t.salaAtual.isNull = false := by
  induction fuel with
  | zero => intro s _ t ht; simp [trajeto] at ht
  | succ n ih =>
    intro s hs t ht
    cases h : iteracao s with
    | continua s1 =>
      rw [trajeto_continua n h] at ht
      rcases List.mem_cons.1 ht with h1 | h1
      · rw [h1]; exact hs
      · exact ih s1 (iteracao_continua_sala s s1 h).2 t h1
    | termina f s1 =>
      rw [trajeto_termina n h] at ht
      simp at ht
      rw [ht]; exact hs

/-- The loop ends by the loop test only when it is entered with the null pointer. -/
theorem laco_fim (fuel : Nat) : ∀ (s s1 : Estado) (f : Fim), laco fuel s = some (f, s1) →
    (f = .SalaNula ∧ s.salaAtual.isNull = true ∧ s1 = s)
      ∨ ((f = .DeadEnd ∨ f = .Exited) ∧ s.salaAtual.isNull = false
          ∧ s1.salaAtual.isNull = false) := by
  induction fuel with
  | zero => intro s s1 f h; simp [laco] at h
  | succ n ih =>
    intro s s1 f h
    cases hi : iteracao s with
    | continua s2 =>
      rw [laco_continua n hi] at h
      have hs := iteracao_continua_sala s s2 hi
      rcases ih s2 s1 f h with ⟨-, h2, -⟩ | ⟨h1, -, h3⟩
      · rw [hs.2] at h2; cases h2
      · exact Or.inr ⟨h1, hs.1, h3⟩
    | termina g s2 =>
      rw [laco_termina n hi] at h
      simp at h
      obtain ⟨hg, hs2⟩ := h
      subst hg hs2
      rcases iteracao_termina_casos s s2 g hi with h1 | ⟨h1, h2, h3⟩
      · exact Or.inl h1
      · exact Or.inr ⟨h1, h2, by rw [h3]; exact h2⟩

/-- At the end of the input an iteration in a room with a path dispatches the content
that `escolha` already has. -/
theorem iteracao_fim_entrada (nome : String) (e d : Sala) (esc : Char) (ws : List Char)
    (out : List String) (hws : ∀ x ∈ ws, isspace x = true)
    (h : (e.isNull && d.isNull) = false) :
    iteracao ⟨.mk nome e d, esc, ws, out⟩
      = processar ⟨.mk nome e d, esc, [],
          out ++ [msgSeparador, msgVoceEsta nome] ++ menu (.mk nome e d)⟩ := by
  rw [iteracao_com_saida nome e d esc ws out h, scanf_fim esc ws hws]

/-- The switch ends the loop only on the exit choice. -/
theorem processar_continua (s : Estado) (h1 : s.escolha ≠ 's') (h2 : s.escolha ≠ 'S') :
    ∃ s1, processar s = .continua s1 ∧ s1.escolha = s.escolha ∧ s1.entrada = s.entrada := by
  unfold processar
  split_ifs with a b c d e
  · exact ⟨_, rfl, rfl, rfl⟩
  · exact ⟨_, rfl, rfl, rfl⟩
  · exact ⟨_, rfl, rfl, rfl⟩
  · exact ⟨_, rfl, rfl, rfl⟩
  · rcases e with e | e
    · exact absurd e h1
    · exact absurd e h2
  · exact ⟨_, rfl, rfl, rfl⟩

/-- After a switch that continues, `escolha` does not hold the exit choice. -/
theorem processar_continua_escolha (s s1 : Estado) (h : processar s = .continua s1) :
    s1.escolha ≠ 's' ∧ s1.escolha ≠ 'S' := by
  have he : s1.escolha = s.escolha := by
    have := (processar_estado s).1
    rw [h] at this
    exact this
  rw [he]
  obtain ⟨sala, c, ent, out⟩ := s
  constructor
  · intro hc
    rw [processar_sair sala c ent out (Or.inl hc)] at h
    cases h
  · intro hc
    rw [processar_sair sala c ent out (Or.inr hc)] at h
    cases h

/-- After an iteration that continues, `escolha` does not hold the exit choice. -/
theorem iteracao_continua_escolha (s s1 : Estado) (h : iteracao s = .continua s1) :
    s1.escolha ≠ 's' ∧ s1.escolha ≠ 'S' := by
  obtain ⟨sala, c, ent, out⟩ := s
  cases sala with
  | NULL => simp [iteracao] at h
  | mk n e d =>
    cases hp : (e.isNull && d.isNull)
    · rw [iteracao_com_saida n e d c ent out hp] at h
      exact processar_continua_escolha _ s1 h
    · simp [iteracao, hp] at h

/-- In Sala de Jantar, at the end of the input with `e` in `escolha`, an iteration prints
the blocked message and stays. -/
theorem jantar_fim (ws : List Char) (out : List String) (hws : ∀ x ∈ ws, isspace x = true) :
    iteracao ⟨mapaExemplo.direita, 'e', ws, out⟩
      = .continua ⟨mapaExemplo.direita, 'e', [], out ++ blocoJantar⟩ := by
  have h := iteracao_fim_entrada "Sala de Jantar" .NULL mapaExemplo.direita.direita 'e' ws out
    hws rfl
  rw [processar_esquerda _ _ _ _ _ _ (Or.inl rfl)] at h
  have hout : out ++ [msgSeparador, msgVoceEsta "Sala de Jantar"] ++ menu mapaExemplo.direita
      ++ [msgBloqueadoEsquerda] = out ++ blocoJantar := by
    rw [menu_jantar]
    simp [blocoJantar]
  exact h.trans (by rw [← hout]; rfl)

/-- From there the loop runs for ever in Sala de Jantar. -/
theorem jantar_para_sempre (fuel : Nat) : ∀ (ws : List Char) (out : List String),
    (∀ x ∈ ws, isspace x = true) →
    laco fuel ⟨mapaExemplo.direita, 'e', ws, out⟩ = none
      ∧ (trajeto fuel ⟨mapaExemplo.direita, 'e', ws, out⟩).length = fuel
      ∧ (∀ t ∈ trajeto fuel ⟨mapaExemplo.direita, 'e', ws, out⟩,
          t.salaAtual = mapaExemplo.direita)
      ∧ List.Chain' (fun a b : Estado => b.saida = a.saida ++ blocoJantar)
          (trajeto fuel ⟨mapaExemplo.direita, 'e', ws, out⟩) := by
  induction fuel with
  | zero => intro ws out _; simp [laco, trajeto]
  | succ n ih =>
    intro ws out hws
    have hstep := jantar_fim ws out hws
    obtain ⟨i1, i2, i3, i4⟩ := ih [] (out ++ blocoJantar) (by simp)
    rw [laco_continua n hstep, trajeto_continua n hstep]
    refine ⟨i1, by simp [i2], ?_, ?_⟩
    · intro t ht
      rcases List.mem_cons.1 ht with h | h
      · rw [h]
      · exact i3 t h
    · rw [List.chain'_cons']
      refine ⟨?_, i4⟩
      intro y hy
      cases n with
      | zero => simp [trajeto] at hy
      | succ m =>
        rw [head_trajeto] at hy
        simp at hy
        subst hy
        rfl

theorem passo_esquerda_fim (nome n2 : String) (e2 d2 d : Sala) (ws : List Char)
    (c : Char) (out : List String) (hws : ∀ x ∈ ws, isspace x = true)
    (hc : c = 'e' ∨ c = 'E') :
    iteracao ⟨.mk nome (.mk n2 e2 d2) d, c, ws, out⟩
      = .continua ⟨.mk n2 e2 d2, c, [],
          out ++ [msgSeparador, msgVoceEsta nome] ++ menu (.mk nome (.mk n2 e2 d2) d)⟩ := by
  rw [iteracao_fim_entrada nome _ d c ws out hws (by simp), processar_esquerda _ _ _ _ _ _ hc]
  simp

/-- The walk on the single choice `e`: read once, dispatched three times. -/
theorem um_e_passos (esc0 : Char) (ws1 ws2 : List Char) (fuel : Nat)
    (h1 : ∀ x ∈ ws1, isspace x = true) (h2 : ∀ x ∈ ws2, isspace x = true) :
    laco (fuel + 4) ⟨mapaExemplo, esc0, ws1 ++ 'e' :: ws2, []⟩
        = some (.DeadEnd, ⟨.mk "Escritorio Secreto" .NULL .NULL, 'e', [], saidaCenarioA⟩)
      ∧ (trajeto (fuel + 4) ⟨mapaExemplo, esc0, ws1 ++ 'e' :: ws2, []⟩).map
          (fun s => (s.salaAtual.nome, s.entrada))
          = [("Hall de Entrada", ws1 ++ 'e' :: ws2), ("Sala de Estar", ws2),
             ("Biblioteca", []), ("Escritorio Secreto", [])] := by
  have s1 := passo_esquerda "Hall de Entrada" "Sala de Estar" mapaExemplo.esquerda.esquerda
    mapaExemplo.esquerda.direita mapaExemplo.direita esc0 ws1 ws2 'e' [] h1 (Or.inl rfl)
  have s2 := passo_esquerda_fim "Sala de Estar" "Biblioteca"
    mapaExemplo.esquerda.esquerda.esquerda .NULL mapaExemplo.esquerda.direita ws2 'e'
    ([] ++ [msgSeparador, msgVoceEsta "Hall de Entrada"] ++ menu mapaExemplo) h2 (Or.inl rfl)
  have s3 := passo_esquerda_fim "Biblioteca" "Escritorio Secreto" .NULL .NULL .NULL [] 'e'
    ([] ++ [msgSeparador, msgVoceEsta "Hall de Entrada"] ++ menu mapaExemplo
      ++ [msgSeparador, msgVoceEsta "Sala de Estar"] ++ menu mapaExemplo.esquerda)
    (by simp) (Or.inl rfl)
  have s4 := iteracao_sem_saida "Escritorio Secreto" 'e' []
    ([] ++ [msgSeparador, msgVoceEsta "Hall de Entrada"] ++ menu mapaExemplo
      ++ [msgSeparador, msgVoceEsta "Sala de Estar"] ++ menu mapaExemplo.esquerda
      ++ [msgSeparador, msgVoceEsta "Biblioteca"] ++ menu mapaExemplo.esquerda.esquerda)
  constructor
  · exact (laco_continua (fuel + 3) s1).trans ((laco_continua (fuel + 2) s2).trans
      ((laco_continua (fuel + 1) s3).trans (laco_termina fuel s4)))
  · have t := (trajeto_continua (fuel + 3) s1).trans (congrArg _
      ((trajeto_continua (fuel + 2) s2).trans (congrArg _
        ((trajeto_continua (fuel + 1) s3).trans (congrArg _ (trajeto_termina fuel s4))))))
    exact congrArg (List.map (fun s : Estado => (s.salaAtual.nome, s.entrada))) t

/-- For a name that fits in the field `nome`, `criarSala` with memory left returns the
room with that name and no paths. -/
theorem criarSala_cabe (nome : String) (m : Nat) (out : List String)
    (h : cabeNoNome nome = true) :
    criarSala nome ⟨m + 1, out⟩ = .ok (.mk nome .NULL .NULL) ⟨m, out⟩ := by
  simp [criarSala, h]

/-- Building the map never writes past the end of a field `nome`. -/
theorem montarMapa_definido (w : Mundo) : montarMapa w ≠ .indefinido := by
  obtain ⟨mem, out⟩ := w
  by_cases h : mem < 8
  · rw [montarMapa_falha mem out h]
    exact fun hc => by cases hc
  · obtain ⟨k, rfl⟩ : ∃ k, mem = k + 8 := ⟨mem - 8, by omega⟩
    rw [montarMapa_ok k out]
    exact fun hc => by cases hc

/-! ## The claims -/

/-- C1: in a room whose two paths are both absent, an iteration of `explorarSalas` prints
the separator, the room name and the dead-end message and nothing else, ends the loop in
`DeadEnd`, and leaves the input and `escolha` as they were, whatever the input is; none of
the three lines printed is a line of a menu or the prompt. -/
theorem sala_sem_saida_termina (nome : String) (esc : Char) (ent : List Char)
    (out : List String) :
    iteracao ⟨.mk nome .NULL .NULL, esc, ent, out⟩
        = .termina .DeadEnd ⟨.mk nome .NULL .NULL, esc, ent,
            out ++ [msgSeparador, msgVoceEsta nome, msgSemSaida]⟩
      ∧ (∀ fuel, explorarSalas (fuel + 1) (.mk nome .NULL .NULL) esc ent out
          = some (.DeadEnd, ⟨.mk nome .NULL .NULL, esc, ent,
              out ++ [msgSeparador, msgVoceEsta nome, msgSemSaida]⟩))
      ∧ (∀ sala : Sala, ∀ m ∈ [msgSeparador, msgVoceEsta nome, msgSemSaida],
          m ∉ menu sala) := by
  have hit : iteracao ⟨.mk nome .NULL .NULL, esc, ent, out⟩
        = .termina .DeadEnd ⟨.mk nome .NULL .NULL, esc, ent,
            out ++ [msgSeparador, msgVoceEsta nome, msgSemSaida]⟩ := by
    simp [iteracao]
  refine ⟨hit, ?_, ?_⟩
  · intro fuel
    simp [explorarSalas, laco, hit]
  · intro sala m hm hmenu
    have hcases := mem_menu hmenu
    simp only [List.mem_cons, List.mem_singleton, List.not_mem_nil, or_false] at hm
    rcases hm with h | h | h <;> subst h <;>
      rcases hcases with h | h | h | h | h <;> revert h <;> apply data_ne <;>
      simp [msgSeparador, msgVoceEsta, msgSemSaida, msgEscolha, msgOpcaoEsquerda,
        msgOpcaoDireita, msgOpcaoSair, msgPrompt, String.data_append]

/-- C2: when the choice read is `e` or `E` and the left path is present, the iteration makes
the left room the current room; when it is `d` or `D` and the right path is present, the
right room becomes current; in both cases the iteration prints only the header and the
menu, which hold no blocked or invalid-option message. -/
theorem escolha_move_para_filho (nome : String) (e d : Sala) (esc : Char) (ent : List Char)
    (out : List String) (c : Char) (rest : List Char) (hler : scanf esc ent = (c, rest)) :
    ((c = 'e' ∨ c = 'E') → e.isNull = false →
        iteracao ⟨.mk nome e d, esc, ent, out⟩
          = .continua ⟨e, c, rest,
              out ++ [msgSeparador, msgVoceEsta nome] ++ menu (.mk nome e d)⟩)
      ∧ ((c = 'd' ∨ c = 'D') → d.isNull = false →
        iteracao ⟨.mk nome e d, esc, ent, out⟩
          = .continua ⟨d, c, rest,
              out ++ [msgSeparador, msgVoceEsta nome] ++ menu (.mk nome e d)⟩)
      ∧ (∀ m ∈ [msgSeparador, msgVoceEsta nome] ++ menu (.mk nome e d),
          m ∉ mensagensDeRecusa) := by
  refine ⟨?_, ?_, cabecalho_menu_sem_recusa nome _⟩
  · intro hc he
    rw [iteracao_com_saida nome e d esc ent out (by simp [he]), hler,
      processar_esquerda _ _ _ _ _ _ hc]
    simp [he]
  · intro hc hd
    rw [iteracao_com_saida nome e d esc ent out (by simp [hd]), hler,
      processar_direita _ _ _ _ _ _ hc]
    simp [hd]

/-- C3: in a room with at least one path, the choice of a direction (either letter case)
whose path is absent keeps the current room, adds the blocked message of that direction
after the menu, and the loop goes on: the next iteration shows the same room and its menu
again. -/
theorem caminho_bloqueado (nome : String) (e d : Sala) (esc : Char) (ent : List Char)
    (out : List String) (c : Char) (rest : List Char) (hler : scanf esc ent = (c, rest))
    (h : (e.isNull && d.isNull) = false) :
    ((c = 'e' ∨ c = 'E') → e.isNull = true →
        iteracao ⟨.mk nome e d, esc, ent, out⟩
          = .continua ⟨.mk nome e d, c, rest,
              out ++ [msgSeparador, msgVoceEsta nome] ++ menu (.mk nome e d)
                ++ [msgBloqueadoEsquerda]⟩)
      ∧ ((c = 'd' ∨ c = 'D') → d.isNull = true →
        iteracao ⟨.mk nome e d, esc, ent, out⟩
          = .continua ⟨.mk nome e d, c, rest,
              out ++ [msgSeparador, msgVoceEsta nome] ++ menu (.mk nome e d)
                ++ [msgBloqueadoDireita]⟩)
      ∧ (∀ (esc1 : Char) (ent1 : List Char) (out1 : List String),
          ∃ fim : List String, fim.length ≤ 1 ∧
            (iteracao ⟨.mk nome e d, esc1, ent1, out1⟩).estado.saida
              = out1 ++ [msgSeparador, msgVoceEsta nome] ++ menu (.mk nome e d) ++ fim) := by
  refine ⟨?_, ?_, fun esc1 ent1 out1 => iteracao_reapresenta nome e d esc1 ent1 out1 h⟩
  · intro hc he
    rw [iteracao_com_saida nome e d esc ent out h, hler, processar_esquerda _ _ _ _ _ _ hc]
    simp [he]
  · intro hc hd
    rw [iteracao_com_saida nome e d esc ent out h, hler, processar_direita _ _ _ _ _ _ hc]
    simp [hd]

/-- C4: in a room with at least one path, a choice that is none of `e`, `E`, `d`, `D`, `s`,
`S` keeps the current room, adds the invalid-option message after the menu, and the loop
goes on: the next iteration shows the same room and its menu again. -/
theorem opcao_invalida (nome : String) (e d : Sala) (esc : Char) (ent : List Char)
    (out : List String) (c : Char) (rest : List Char) (hler : scanf esc ent = (c, rest))
    (h : (e.isNull && d.isNull) = false)
    (hc : c ≠ 'e' ∧ c ≠ 'E' ∧ c ≠ 'd' ∧ c ≠ 'D' ∧ c ≠ 's' ∧ c ≠ 'S') :
    iteracao ⟨.mk nome e d, esc, ent, out⟩
        = .continua ⟨.mk nome e d, c, rest,
            out ++ [msgSeparador, msgVoceEsta nome] ++ menu (.mk nome e d) ++ [msgInvalida]⟩
      ∧ (∀ (esc1 : Char) (ent1 : List Char) (out1 : List String),
          ∃ fim : List String, fim.length ≤ 1 ∧
            (iteracao ⟨.mk nome e d, esc1, ent1, out1⟩).estado.saida
              = out1 ++ [msgSeparador, msgVoceEsta nome] ++ menu (.mk nome e d) ++ fim) := by
  refine ⟨?_, fun esc1 ent1 out1 => iteracao_reapresenta nome e d esc1 ent1 out1 h⟩
  rw [iteracao_com_saida nome e d esc ent out h, hler, processar_invalida _ _ _ _ hc]

/-- C5: in a room with at least one path, whatever lies below it, the choice `s` or `S`
ends `explorarSalas` in `Exited` in that very iteration: the farewell follows the menu, the
room is the only one visited from there, and the input after the choice stays unread. -/
theorem escolha_sair (nome : String) (e d : Sala) (esc : Char) (ent : List Char)
    (out : List String) (c : Char) (rest : List Char) (hler : scanf esc ent = (c, rest))
    (h : (e.isNull && d.isNull) = false) (hc : c = 's' ∨ c = 'S') :
    iteracao ⟨.mk nome e d, esc, ent, out⟩
        = .termina .Exited ⟨.mk nome e d, c, rest,
            out ++ [msgSeparador, msgVoceEsta nome] ++ menu (.mk nome e d) ++ [msgSair]⟩
      ∧ (∀ fuel, explorarSalas (fuel + 1) (.mk nome e d) esc ent out
          = some (.Exited, ⟨.mk nome e d, c, rest,
              out ++ [msgSeparador, msgVoceEsta nome] ++ menu (.mk nome e d) ++ [msgSair]⟩))
      ∧ (∀ fuel, salasVisitadas (fuel + 1) ⟨.mk nome e d, esc, ent, out⟩ = [.mk nome e d]) := by
  have hit : iteracao ⟨.mk nome e d, esc, ent, out⟩
        = .termina .Exited ⟨.mk nome e d, c, rest,
            out ++ [msgSeparador, msgVoceEsta nome] ++ menu (.mk nome e d) ++ [msgSair]⟩ := by
    rw [iteracao_com_saida nome e d esc ent out h, hler, processar_sair _ _ _ _ hc]
  refine ⟨hit, ?_, ?_⟩
  · intro fuel
    simp [explorarSalas, laco, hit]
  · intro fuel
    simp [salasVisitadas, trajeto, hit]

/-- C6: in a room with at least one path, the iteration displays the menu of the room, and
that menu holds a left option exactly when the left path is present, a right option exactly
when the right path is present, each with the name of the room on that path, and always the
exit option. -/
theorem menu_lista_caminhos (nome : String) (e d : Sala) (esc : Char) (ent : List Char)
    (out : List String) (h : (e.isNull && d.isNull) = false) :
    (∃ fim : List String, fim.length ≤ 1 ∧
        (iteracao ⟨.mk nome e d, esc, ent, out⟩).estado.saida
          = out ++ [msgSeparador, msgVoceEsta nome] ++ menu (.mk nome e d) ++ fim)
      ∧ (∀ n, msgOpcaoEsquerda n ∈ menu (.mk nome e d) ↔ (e.isNull = false ∧ n = e.nome))
      ∧ (∀ n, msgOpcaoDireita n ∈ menu (.mk nome e d) ↔ (d.isNull = false ∧ n = d.nome))
      ∧ msgOpcaoSair ∈ menu (.mk nome e d) := by
  refine ⟨iteracao_reapresenta nome e d esc ent out h, ?_, ?_, ?_⟩
  · intro n
    constructor
    · intro hm
      rcases mem_menu hm with h1 | h1 | h1 | h1 | h1
      · exact absurd h1 (msgOpcaoEsquerda_ne_fixas n).1
      · have hn : n = e.nome := msgOpcaoEsquerda_inj h1
        refine ⟨?_, hn⟩
        cases he : e.isNull
        · rfl
        · exfalso
          have hd : d.isNull = false := by simpa [he] using h
          have hf := msgOpcaoEsquerda_ne_fixas n
          simp [menu, he, hd, hf.1, hf.2.1, hf.2.2, msgOpcaoEsquerda_ne_direita] at hm
      · exact absurd h1 (msgOpcaoEsquerda_ne_direita _ _)
      · exact absurd h1 (msgOpcaoEsquerda_ne_fixas n).2.1
      · exact absurd h1 (msgOpcaoEsquerda_ne_fixas n).2.2
    · rintro ⟨he, hn⟩
      subst hn
      simp [menu, he]
  · intro n
    constructor
    · intro hm
      rcases mem_menu hm with h1 | h1 | h1 | h1 | h1
      · exact absurd h1 (msgOpcaoDireita_ne_fixas n).1
      · exact absurd h1.symm (msgOpcaoEsquerda_ne_direita _ _)
      · have hn : n = d.nome := msgOpcaoDireita_inj h1
        refine ⟨?_, hn⟩
        cases hd : d.isNull
        · rfl
        · exfalso
          have he : e.isNull = false := by simpa [hd] using h
          have hf := msgOpcaoDireita_ne_fixas n
          have hx : ∀ x, msgOpcaoDireita n ≠ msgOpcaoEsquerda x :=
            fun x hx => msgOpcaoEsquerda_ne_direita x n hx.symm
          simp [menu, he, hd, hf.1, hf.2.1, hf.2.2, hx] at hm
      · exact absurd h1 (msgOpcaoDireita_ne_fixas n).2.1
      · exact absurd h1 (msgOpcaoDireita_ne_fixas n).2.2
    · rintro ⟨hd, hn⟩
      subst hn
      simp [menu, hd]
  · simp [menu]

/-- Instance of C1: the room `Despensa` with the input `e` still unread. -/
theorem sala_sem_saida_termina_witness :
    iteracao ⟨.mk "Despensa" .NULL .NULL, 'x', ['e'], []⟩
      = .termina .DeadEnd ⟨.mk "Despensa" .NULL .NULL, 'x', ['e'],
          [] ++ [msgSeparador, msgVoceEsta "Despensa", msgSemSaida]⟩ :=
  (sala_sem_saida_termina "Despensa" 'x' ['e'] []).1

/-- Instance of C2: from the hall of the sample map, `E` leads to `Sala de Estar` and `d` to
`Sala de Jantar`. -/
theorem escolha_move_para_filho_witness :
    iteracao ⟨mapaExemplo, 'x', ['\n', 'E', 's'], []⟩
        = .continua ⟨mapaExemplo.esquerda, 'E', ['s'],
            [] ++ [msgSeparador, msgVoceEsta "Hall de Entrada"] ++ menu mapaExemplo⟩
      ∧ iteracao ⟨mapaExemplo, 'x', ['d', '\n'], []⟩
        = .continua ⟨mapaExemplo.direita, 'd', ['\n'],
            [] ++ [msgSeparador, msgVoceEsta "Hall de Entrada"] ++ menu mapaExemplo⟩ :=
  ⟨(escolha_move_para_filho "Hall de Entrada" mapaExemplo.esquerda mapaExemplo.direita 'x'
      ['\n', 'E', 's'] [] 'E' ['s'] (by decide)).1 (Or.inr rfl) rfl,
   (escolha_move_para_filho "Hall de Entrada" mapaExemplo.esquerda mapaExemplo.direita 'x'
      ['d', '\n'] [] 'd' ['\n'] (by decide)).2.1 (Or.inl rfl) rfl⟩

/-- Instance of C3: `Sala de Jantar` has no left path and `Biblioteca` has no right path. -/
theorem caminho_bloqueado_witness :
    iteracao ⟨mapaExemplo.direita, 'd', ['\n', 'e', '\n'], []⟩
        = .continua ⟨mapaExemplo.direita, 'e', ['\n'],
            [] ++ [msgSeparador, msgVoceEsta "Sala de Jantar"] ++ menu mapaExemplo.direita
              ++ [msgBloqueadoEsquerda]⟩
      ∧ iteracao ⟨mapaExemplo.esquerda.esquerda, 'e', ['D'], []⟩
        = .continua ⟨mapaExemplo.esquerda.esquerda, 'D', [],
            [] ++ [msgSeparador, msgVoceEsta "Biblioteca"] ++ menu mapaExemplo.esquerda.esquerda
              ++ [msgBloqueadoDireita]⟩ :=
  ⟨(caminho_bloqueado "Sala de Jantar" .NULL mapaExemplo.direita.direita 'd'
      ['\n', 'e', '\n'] [] 'e' ['\n'] (by decide) rfl).1 (Or.inl rfl) rfl,
   (caminho_bloqueado "Biblioteca" mapaExemplo.esquerda.esquerda.esquerda .NULL 'e'
      ['D'] [] 'D' [] (by decide) rfl).2.1 (Or.inr rfl) rfl⟩

/-- Instance of C4: the choice `x` in the hall of the sample map. -/
theorem opcao_invalida_witness :
    iteracao ⟨mapaExemplo, 'e', ['x', '\n'], []⟩
      = .continua ⟨mapaExemplo, 'x', ['\n'],
          [] ++ [msgSeparador, msgVoceEsta "Hall de Entrada"] ++ menu mapaExemplo
            ++ [msgInvalida]⟩ :=
  (opcao_invalida "Hall de Entrada" mapaExemplo.esquerda mapaExemplo.direita 'e' ['x', '\n'] []
    'x' ['\n'] (by decide) rfl (by decide)).1

/-- Instance of C5: the choice `S` in `Cozinha`, with more input behind it. -/
theorem escolha_sair_witness :
    iteracao ⟨mapaExemplo.direita.direita, 'd', [' ', 'S', 'e', 'e'], []⟩
      = .termina .Exited ⟨mapaExemplo.direita.direita, 'S', ['e', 'e'],
          [] ++ [msgSeparador, msgVoceEsta "Cozinha"] ++ menu mapaExemplo.direita.direita
            ++ [msgSair]⟩ :=
  (escolha_sair "Cozinha" (.mk "Despensa" .NULL .NULL) .NULL 'd' [' ', 'S', 'e', 'e'] []
    'S' ['e', 'e'] (by decide) rfl (Or.inr rfl)).1

/-- Instance of C6: the menu of `Sala de Jantar` offers the right path to `Cozinha` and no
left path. -/
theorem menu_lista_caminhos_witness :
    (msgOpcaoEsquerda "Biblioteca" ∈ menu mapaExemplo.direita ↔
        (Sala.NULL.isNull = false ∧ "Biblioteca" = Sala.NULL.nome))
      ∧ (msgOpcaoDireita "Cozinha" ∈ menu mapaExemplo.direita ↔
        (mapaExemplo.direita.direita.isNull = false
          ∧ "Cozinha" = mapaExemplo.direita.direita.nome))
      ∧ msgOpcaoSair ∈ menu mapaExemplo.direita :=
  ⟨(menu_lista_caminhos "Sala de Jantar" .NULL mapaExemplo.direita.direita 'x' [] [] rfl).2.1
      "Biblioteca",
   (menu_lista_caminhos "Sala de Jantar" .NULL mapaExemplo.direita.direita 'x' [] [] rfl).2.2.1
      "Cozinha",
   (menu_lista_caminhos "Sala de Jantar" .NULL mapaExemplo.direita.direita 'x' [] [] rfl).2.2.2⟩

/-- C7: `liberarArvore` appends to the release log the post-order list of the rooms of the
tree; started on the root with an empty log, the log has no repetition, holds exactly the
addresses at which the tree has a room, lists every room after all the rooms below it, and
its length is the number of rooms; the map that `main` builds takes eight allocations and
its release log has length 8; on a null root nothing is released. -/
theorem liberarArvore_pos_ordem (raiz : Sala) :
    (∀ log, liberarArvore raiz [] log = log ++ posOrdem raiz [])
      ∧ (liberarArvore raiz [] []).Nodup
      ∧ (∀ p, p ∈ liberarArvore raiz [] [] ↔ (raiz.em p).isNull = false)
      ∧ (∀ p q, p ∈ liberarArvore raiz [] [] → q ∈ liberarArvore raiz [] [] → q <+: p → q ≠ p →
          ∃ l1 l2 l3, liberarArvore raiz [] [] = l1 ++ p :: (l2 ++ q :: l3))
      ∧ (liberarArvore raiz [] []).length = raiz.contar
      ∧ (∀ (k : Nat) (out : List String), ∃ r w, montarMapa ⟨k + 8, out⟩ = .ok r w
          ∧ (k + 8) - w.mem = 8 ∧ (liberarArvore r [] []).length = 8)
      ∧ (∀ log, liberarArvore .NULL [] log = log) := by
  have h0 : liberarArvore raiz [] [] = posOrdem raiz [] := by
    simpa using liberarArvore_eq raiz [] []
  refine ⟨fun log => liberarArvore_eq raiz [] log, ?_, ?_, ?_, ?_, ?_, fun log => rfl⟩
  · rw [h0]; exact nodup_posOrdem raiz []
  · intro p
    rw [h0, mem_posOrdem]
    simp
  · rw [h0]; exact posOrdem_filhos_antes raiz []
  · rw [h0]; exact length_posOrdem raiz []
  · intro k out
    exact ⟨mapaExemplo, ⟨k, out⟩, montarMapa_ok k out, by simp, by decide⟩

/-- Instance of C7: in the sample map `Escritorio Secreto` is released before `Sala de Estar`. -/
theorem liberarArvore_pos_ordem_witness :
    ∃ l1 l2 l3, liberarArvore mapaExemplo [] []
      = l1 ++ [Lado.esq, Lado.esq, Lado.esq] :: (l2 ++ [Lado.esq] :: l3) :=
  (liberarArvore_pos_ordem mapaExemplo).2.2.2.1 [Lado.esq, Lado.esq, Lado.esq] [Lado.esq]
    (by decide) (by decide) (by decide) (by decide)

/-- C8: with room for eight rooms, the calls and assignments of `main` build exactly the
sample map: the hall with `Sala de Estar` on the left (left `Biblioteca`, whose only path is
left to `Escritorio Secreto`; right `Jardim de Inverno`, without paths) and `Sala de Jantar`
on the right (no left path; right `Cozinha`, whose only path is left to `Despensa`); it has
8 rooms at exactly the eight listed addresses, 3 of them without paths, and every other
path is absent. -/
theorem mapa_de_main (k : Nat) (out : List String) :
    montarMapa ⟨k + 8, out⟩
        = .ok (.mk "Hall de Entrada"
            (.mk "Sala de Estar"
              (.mk "Biblioteca" (.mk "Escritorio Secreto" .NULL .NULL) .NULL)
              (.mk "Jardim de Inverno" .NULL .NULL))
            (.mk "Sala de Jantar"
              .NULL
              (.mk "Cozinha" (.mk "Despensa" .NULL .NULL) .NULL))) ⟨k, out⟩
      ∧ mapaExemplo.contar = 8
      ∧ mapaExemplo.folhas = 3
      ∧ (∀ p, (mapaExemplo.em p).isNull = false ↔ p ∈ enderecosExemplo)
      ∧ enderecosExemplo.map (fun p => (mapaExemplo.em p).nome)
        = ["Escritorio Secreto", "Biblioteca", "Jardim de Inverno", "Sala de Estar",
           "Despensa", "Cozinha", "Sala de Jantar", "Hall de Entrada"] := by
  refine ⟨montarMapa_ok k out, by decide, by decide, ?_, by decide⟩
  intro p
  have h := mem_posOrdem mapaExemplo [] p
  have hl : posOrdem mapaExemplo [] = enderecosExemplo := by decide
  rw [hl] at h
  rw [h]
  simp

/-- C9: the case of the letters `e`, `d`, `s` does not matter: two inputs (and two initial
contents of `escolha`) that differ only in the case of these letters give, from the same
room and output, runs that end alike within the same number of iterations, in the same
terminal state, in the same room, with the same output and with the same input left up to
case, and that visit the same rooms and show the same output at every iteration. -/
theorem escolha_sem_caixa (fuel : Nat) (sala : Sala) (esc1 esc2 : Char) (ent1 ent2 : List Char)
    (out : List String) (hesc : semCaixa esc1 = semCaixa esc2)
    (h : ent1.map semCaixa = ent2.map semCaixa) :
    (explorarSalas fuel sala esc1 ent1 out).map
          (fun r => (r.1, r.2.salaAtual, r.2.saida, r.2.entrada.map semCaixa))
        = (explorarSalas fuel sala esc2 ent2 out).map
          (fun r => (r.1, r.2.salaAtual, r.2.saida, r.2.entrada.map semCaixa))
      ∧ salasVisitadas fuel ⟨sala, esc1, ent1, out⟩ = salasVisitadas fuel ⟨sala, esc2, ent2, out⟩
      ∧ (trajeto fuel ⟨sala, esc1, ent1, out⟩).map Estado.saida
        = (trajeto fuel ⟨sala, esc2, ent2, out⟩).map Estado.saida := by
  have hs : (⟨sala, esc1, ent1, out⟩ : Estado).semCaixa
      = (⟨sala, esc2, ent2, out⟩ : Estado).semCaixa := by
    simp [Estado.semCaixa, hesc, h]
  have hl := congrArg (laco fuel) hs
  have ht := congrArg (trajeto fuel) hs
  rw [laco_semCaixa, laco_semCaixa] at hl
  rw [trajeto_semCaixa, trajeto_semCaixa] at ht
  refine ⟨?_, ?_, ?_⟩
  · have := congrArg (Option.map (fun r : Fim × Estado =>
      (r.1, r.2.salaAtual, r.2.saida, r.2.entrada))) hl
    simpa [Option.map_map, Function.comp_def, Estado.semCaixa, explorarSalas] using this
  · have := congrArg (List.map Estado.salaAtual) ht
    simpa [List.map_map, Function.comp_def, Estado.semCaixa, salasVisitadas] using this
  · have := congrArg (List.map Estado.saida) ht
    simpa [List.map_map, Function.comp_def, Estado.semCaixa] using this

/-- Instance of C9: the inputs `e D x s` and `E d x S` on the sample map. -/
theorem escolha_sem_caixa_witness :
    salasVisitadas 6 ⟨mapaExemplo, 'x', ['e', 'D', 'x', 's'], []⟩
      = salasVisitadas 6 ⟨mapaExemplo, 'x', ['E', 'd', 'x', 'S'], []⟩ :=
  (escolha_sem_caixa 6 mapaExemplo 'x' 'x' ['e', 'D', 'x', 's'] ['E', 'd', 'x', 'S'] []
    rfl (by decide)).2.1

/-- C10: scenario A. On the sample map, three choices `e`, each preceded by any white space,
make `explorarSalas` visit Hall de Entrada, Sala de Estar, Biblioteca and Escritorio Secreto
in that order and end in `DeadEnd` after four iterations, with everything that follows the
third `e` left unread; `main` then returns 0 with that same input left. -/
theorem cenario_A (esc0 : Char) (ws1 ws2 ws3 rest : List Char) (fuel k : Nat)
    (h1 : ∀ x ∈ ws1, isspace x = true) (h2 : ∀ x ∈ ws2, isspace x = true)
    (h3 : ∀ x ∈ ws3, isspace x = true) :
    explorarSalas (fuel + 4) mapaExemplo esc0
        (ws1 ++ 'e' :: (ws2 ++ 'e' :: (ws3 ++ 'e' :: rest))) []
        = some (.DeadEnd, ⟨.mk "Escritorio Secreto" .NULL .NULL, 'e', rest, saidaCenarioA⟩)
      ∧ (salasVisitadas (fuel + 4)
            ⟨mapaExemplo, esc0, ws1 ++ 'e' :: (ws2 ++ 'e' :: (ws3 ++ 'e' :: rest)), []⟩).map
          Sala.nome
          = ["Hall de Entrada", "Sala de Estar", "Biblioteca", "Escritorio Secreto"]
      ∧ main (fuel + 4) (k + 8) esc0 (ws1 ++ 'e' :: (ws2 ++ 'e' :: (ws3 ++ 'e' :: rest)))
        = some ⟨0, [msgBemVindo, msgIntro] ++ saidaCenarioA ++ [msgEncerrado], rest,
            enderecosExemplo⟩ := by
  refine ⟨?_, ?_, ?_⟩
  · have h := (cenarioA_passos esc0 ws1 ws2 ws3 rest [] fuel h1 h2 h3).1
    simpa [explorarSalas] using h
  · have h := (cenarioA_passos esc0 ws1 ws2 ws3 rest [] fuel h1 h2 h3).2
    simpa [salasVisitadas, List.map_map, Function.comp_def] using h
  · rw [main_com_memoria]
    have h := (cenarioA_passos esc0 ws1 ws2 ws3 rest [msgBemVindo, msgIntro] fuel h1 h2 h3).1
    unfold explorarSalas
    rw [h]
    have hl : liberarArvore mapaExemplo [] [] = enderecosExemplo := by decide
    simp [hl]

/-- Instance of C10: the input `e`, `e`, `e`, one to a line, followed by `d`. -/
theorem cenario_A_witness :
    explorarSalas 4 mapaExemplo 'x' ['e', '\n', 'e', '\n', 'e', '\n', 'd'] []
      = some (.DeadEnd, ⟨.mk "Escritorio Secreto" .NULL .NULL, 'e', ['\n', 'd'],
          saidaCenarioA⟩) :=
  (cenario_A 'x' [] ['\n'] ['\n'] ['\n', 'd'] 0 0 (by decide) (by decide) (by decide)).1

/-- C11: scenario B. On the sample map, after the choices `d` and `e` (each after any white
space) the explorer has gone from Hall de Entrada to Sala de Jantar, the second iteration
has ended with the blocked message of the left side, and the loop is back at its test with
Sala de Jantar as the current room: it has not ended. -/
theorem cenario_B (esc0 : Char) (ws1 ws2 rest : List Char)
    (h1 : ∀ x ∈ ws1, isspace x = true) (h2 : ∀ x ∈ ws2, isspace x = true) :
    trajeto 3 ⟨mapaExemplo, esc0, ws1 ++ 'd' :: (ws2 ++ 'e' :: rest), []⟩
        = [⟨mapaExemplo, esc0, ws1 ++ 'd' :: (ws2 ++ 'e' :: rest), []⟩,
           ⟨mapaExemplo.direita, 'd', ws2 ++ 'e' :: rest,
             [msgSeparador, msgVoceEsta "Hall de Entrada"] ++ menu mapaExemplo⟩,
           ⟨mapaExemplo.direita, 'e', rest, saidaCenarioB⟩]
      ∧ mapaExemplo.direita.nome = "Sala de Jantar"
      ∧ iteracao ⟨mapaExemplo.direita, 'd', ws2 ++ 'e' :: rest,
            [msgSeparador, msgVoceEsta "Hall de Entrada"] ++ menu mapaExemplo⟩
        = .continua ⟨mapaExemplo.direita, 'e', rest,
            [msgSeparador, msgVoceEsta "Hall de Entrada"] ++ menu mapaExemplo
              ++ [msgSeparador, msgVoceEsta "Sala de Jantar"] ++ menu mapaExemplo.direita
              ++ [msgBloqueadoEsquerda]⟩
      ∧ explorarSalas 2 mapaExemplo esc0 (ws1 ++ 'd' :: (ws2 ++ 'e' :: rest)) [] = none := by
  obtain ⟨s1, s2⟩ := cenarioB_passos esc0 ws1 ws2 rest [] h1 h2
  refine ⟨?_, rfl, s2, ?_⟩
  · exact (trajeto_continua 2 s1).trans (congrArg _
      ((trajeto_continua 1 s2).trans (congrArg _ (trajeto_um _))))
  · exact (laco_continua 1 s1).trans ((laco_continua 0 s2).trans rfl)

/-- Instance of C11: the input `d`, `e`, one to a line. -/
theorem cenario_B_witness :
    explorarSalas 2 mapaExemplo 'x' ['d', '\n', 'e', '\n'] [] = none :=
  (cenario_B 'x' [] ['\n'] ['\n'] (by decide) (by decide)).2.2.2

/-- C12: scenario D. On the sample map, the choices `d`, `d`, `e` (each after any white
space) make `explorarSalas` visit Hall de Entrada, Sala de Jantar, Cozinha and Despensa in
that order and end in `DeadEnd`; `main` then returns 0. -/
theorem cenario_D (esc0 : Char) (ws1 ws2 ws3 rest : List Char) (fuel k : Nat)
    (h1 : ∀ x ∈ ws1, isspace x = true) (h2 : ∀ x ∈ ws2, isspace x = true)
    (h3 : ∀ x ∈ ws3, isspace x = true) :
    explorarSalas (fuel + 4) mapaExemplo esc0
        (ws1 ++ 'd' :: (ws2 ++ 'd' :: (ws3 ++ 'e' :: rest))) []
        = some (.DeadEnd, ⟨.mk "Despensa" .NULL .NULL, 'e', rest, saidaCenarioD⟩)
      ∧ (salasVisitadas (fuel + 4)
            ⟨mapaExemplo, esc0, ws1 ++ 'd' :: (ws2 ++ 'd' :: (ws3 ++ 'e' :: rest)), []⟩).map
          Sala.nome
          = ["Hall de Entrada", "Sala de Jantar", "Cozinha", "Despensa"]
      ∧ main (fuel + 4) (k + 8) esc0 (ws1 ++ 'd' :: (ws2 ++ 'd' :: (ws3 ++ 'e' :: rest)))
        = some ⟨0, [msgBemVindo, msgIntro] ++ saidaCenarioD ++ [msgEncerrado], rest,
            enderecosExemplo⟩ := by
  refine ⟨?_, ?_, ?_⟩
  · have h := (cenarioD_passos esc0 ws1 ws2 ws3 rest [] fuel h1 h2 h3).1
    simpa [explorarSalas] using h
  · have h := (cenarioD_passos esc0 ws1 ws2 ws3 rest [] fuel h1 h2 h3).2
    simpa [salasVisitadas, List.map_map, Function.comp_def] using h
  · rw [main_com_memoria]
    have h := (cenarioD_passos esc0 ws1 ws2 ws3 rest [msgBemVindo, msgIntro] fuel h1 h2 h3).1
    unfold explorarSalas
    rw [h]
    have hl : liberarArvore mapaExemplo [] [] = enderecosExemplo := by decide
    simp [hl]

/-- Instance of C12: the input `d`, `d`, `e`, one to a line. -/
theorem cenario_D_witness :
    explorarSalas 4 mapaExemplo 'x' ['d', '\n', 'd', '\n', 'e', '\n'] []
      = some (.DeadEnd, ⟨.mk "Despensa" .NULL .NULL, 'e', ['\n'], saidaCenarioD⟩) :=
  (cenario_D 'x' [] ['\n'] ['\n'] ['\n'] 0 0 (by decide) (by decide) (by decide)).1

/-- C13: scenario C. On the sample map, the choice `s` at the root (after any white space)
ends `explorarSalas` in `Exited` in the first iteration, the farewell being the last line
printed; Hall de Entrada is the only room visited and the only name printed as the current
room; `main` then returns 0. -/
theorem cenario_C (esc0 : Char) (ws rest : List Char) (fuel k : Nat)
    (h : ∀ x ∈ ws, isspace x = true) :
    explorarSalas (fuel + 1) mapaExemplo esc0 (ws ++ 's' :: rest) []
        = some (.Exited, ⟨mapaExemplo, 's', rest, saidaCenarioC⟩)
      ∧ saidaCenarioC.getLast? = some msgSair
      ∧ (salasVisitadas (fuel + 1) ⟨mapaExemplo, esc0, ws ++ 's' :: rest, []⟩).map Sala.nome
          = ["Hall de Entrada"]
      ∧ (∀ n, msgVoceEsta n ∈ saidaCenarioC ↔ n = "Hall de Entrada")
      ∧ main (fuel + 1) (k + 8) esc0 (ws ++ 's' :: rest)
        = some ⟨0, [msgBemVindo, msgIntro] ++ saidaCenarioC ++ [msgEncerrado], rest,
            enderecosExemplo⟩ := by
  have s1 := cenarioC_passo esc0 ws rest [] h
  refine ⟨?_, rfl, ?_, ?_, ?_⟩
  · exact (laco_termina fuel s1).trans rfl
  · exact congrArg (fun l => (l.map Estado.salaAtual).map Sala.nome) (trajeto_termina fuel s1)
  · intro n
    have hn := msgVoceEsta_ne_outras n
    constructor
    · intro hm
      simp only [saidaCenarioC, List.mem_cons, List.mem_singleton, List.not_mem_nil,
        or_false] at hm
      rcases hm with h1 | h1 | h1 | h1 | h1 | h1 | h1 | h1
      · exact absurd h1 hn.1
      · exact msgVoceEsta_inj h1
      · exact absurd h1 hn.2.1
      · exact absurd h1 (hn.2.2.1 _)
      · exact absurd h1 (hn.2.2.2.1 _)
      · exact absurd h1 hn.2.2.2.2.1
      · exact absurd h1 hn.2.2.2.2.2.1
      · exact absurd h1 hn.2.2.2.2.2.2.1
    · intro hn
      subst hn
      simp [saidaCenarioC]
  · rw [main_com_memoria]
    have h2 := cenarioC_passo esc0 ws rest [msgBemVindo, msgIntro] h
    unfold explorarSalas
    rw [laco_termina fuel h2]
    have hl : liberarArvore mapaExemplo [] [] = enderecosExemplo := by decide
    simp [hl]

/-- Instance of C13: the input `s` followed by a line end. -/
theorem cenario_C_witness :
    explorarSalas 1 mapaExemplo 'x' ['s', '\n'] []
      = some (.Exited, ⟨mapaExemplo, 's', ['\n'], saidaCenarioC⟩) :=
  (cenario_C 'x' [] ['\n'] 0 0 (by decide)).1

/-- C14, as stated, fails at the end of the input: on the sample map with the input `d`
and a line end, the three prompts of the first three iterations find a single character
that is not white space; the second and third read nothing and dispatch `d` again, which
moves the explorer on to Cozinha. -/
theorem um_caractere_por_prompt_contraexemplo :
    (salasVisitadas 3 ⟨mapaExemplo, 'x', ['d', '\n'], []⟩).map Sala.nome
        = ["Hall de Entrada", "Sala de Jantar", "Cozinha"]
      ∧ (trajeto 3 ⟨mapaExemplo, 'x', ['d', '\n'], []⟩).map
          (fun t => ((naoBrancos t.entrada).length,
            (naoBrancos (iteracao t).estado.entrada).length, (iteracao t).estado.escolha))
        = [(1, 0, 'd'), (0, 0, 'd'), (0, 0, 'd')]
      ∧ ¬ (∀ t ∈ trajeto 3 ⟨mapaExemplo, 'x', ['d', '\n'], []⟩,
          (naoBrancos t.entrada).length
            = (naoBrancos (iteracao t).estado.entrada).length + 1) := by
  decide

/-- C14, amended: white space in the input is ignored. Two inputs with the same characters
other than white space, in the same order, give from the same room, `escolha` and output
runs with the same terminal state, room, last choice and output, and with the same rooms,
choices and output at every iteration; and every prompt (an iteration in a room with a
path) takes the first character of the input that is not white space when there is one,
and only that one; when none is left it reads nothing and dispatches the content that
`escolha` already has. -/
theorem brancos_ignorados (fuel : Nat) (sala : Sala) (esc : Char) (ent1 ent2 : List Char)
    (out : List String) (h : naoBrancos ent1 = naoBrancos ent2) :
    (explorarSalas fuel sala esc ent1 out).map
          (fun r => (r.1, r.2.salaAtual, r.2.escolha, r.2.saida, naoBrancos r.2.entrada))
        = (explorarSalas fuel sala esc ent2 out).map
          (fun r => (r.1, r.2.salaAtual, r.2.escolha, r.2.saida, naoBrancos r.2.entrada))
      ∧ (trajeto fuel ⟨sala, esc, ent1, out⟩).map (fun t => (t.salaAtual, t.escolha, t.saida))
        = (trajeto fuel ⟨sala, esc, ent2, out⟩).map (fun t => (t.salaAtual, t.escolha, t.saida))
      ∧ (∀ (nome : String) (e d : Sala) (c : Char) (ent : List Char) (o : List String),
          (e.isNull && d.isNull) = false →
          (iteracao ⟨.mk nome e d, c, ent, o⟩).estado.escolha = (naoBrancos ent).head?.getD c
            ∧ naoBrancos (iteracao ⟨.mk nome e d, c, ent, o⟩).estado.entrada
              = (naoBrancos ent).tail) := by
  have hs : (⟨sala, esc, ent1, out⟩ : Estado).semBrancos
      = (⟨sala, esc, ent2, out⟩ : Estado).semBrancos := by
    simp [Estado.semBrancos, h]
  have hl := congrArg (laco fuel) hs
  have ht := congrArg (trajeto fuel) hs
  rw [laco_semBrancos, laco_semBrancos] at hl
  rw [trajeto_semBrancos, trajeto_semBrancos] at ht
  refine ⟨?_, ?_, ?_⟩
  · have := congrArg (Option.map (fun r : Fim × Estado =>
      (r.1, r.2.salaAtual, r.2.escolha, r.2.saida, r.2.entrada))) hl
    simpa [Option.map_map, Function.comp_def, Estado.semBrancos, explorarSalas] using this
  · have := congrArg (List.map (fun t : Estado => (t.salaAtual, t.escolha, t.saida))) ht
    simpa [List.map_map, Function.comp_def, Estado.semBrancos] using this
  · intro nome e d c ent o hp
    rw [iteracao_com_saida nome e d c ent o hp]
    have hp := processar_estado ⟨.mk nome e d, (scanf c ent).1, (scanf c ent).2,
      o ++ [msgSeparador, msgVoceEsta nome] ++ menu (.mk nome e d)⟩
    rw [hp.1, hp.2]
    exact scanf_primeiro c ent

/-- Instance of C14 amended: the input `d e s` typed on one line with blanks and typed one
choice to a line. -/
theorem brancos_ignorados_witness :
    (trajeto 5 ⟨mapaExemplo, 'x', [' ', 'd', ' ', 'e', '\t', 's', '\n'], []⟩).map
        (fun t => (t.salaAtual, t.escolha, t.saida))
      = (trajeto 5 ⟨mapaExemplo, 'x', ['d', '\n', 'e', '\n', 's'], []⟩).map
        (fun t => (t.salaAtual, t.escolha, t.saida)) :=
  (brancos_ignorados 5 mapaExemplo 'x' [' ', 'd', ' ', 'e', '\t', 's', '\n']
    ['d', '\n', 'e', '\n', 's'] [] (by decide)).2.1

/-- C15, as stated, fails for a name that does not fit in the field `nome`: with memory for
one room and a name of 60 bytes, `malloc` succeeds and `strcpy` writes 61 bytes into the
field of 50, so `criarSala` neither ends the process nor returns a room that has the
given name. -/
theorem criarSala_nome_longo_contraexemplo :
    "012345678901234567890123456789012345678901234567890123456789".utf8ByteSize = 60
      ∧ cabeNoNome "012345678901234567890123456789012345678901234567890123456789" = false
      ∧ criarSala "012345678901234567890123456789012345678901234567890123456789" ⟨1, []⟩
        = .indefinido
      ∧ criarSala "012345678901234567890123456789012345678901234567890123456789" ⟨1, []⟩
        ≠ .ok (.mk "012345678901234567890123456789012345678901234567890123456789"
            .NULL .NULL) ⟨0, []⟩
      ∧ ¬ ((∃ w1, criarSala "012345678901234567890123456789012345678901234567890123456789"
              ⟨1, []⟩
            = .ok (.mk "012345678901234567890123456789012345678901234567890123456789"
                .NULL .NULL) w1)
          ∨ (∃ w1, criarSala "012345678901234567890123456789012345678901234567890123456789"
              ⟨1, []⟩ = .exit 1 w1)) := by
  have h : criarSala "012345678901234567890123456789012345678901234567890123456789" ⟨1, []⟩
      = .indefinido := by decide
  refine ⟨by decide, by decide, h, ?_, ?_⟩
  · rw [h]; exact fun hc => by cases hc
  · rw [h]
    rintro (⟨w1, hc⟩ | ⟨w1, hc⟩) <;> cases hc

/-- C15, amended: for a name that with its ending zero byte fits in the 50 bytes of the
field `nome`, `criarSala` either returns a new room or ends the process. When `malloc`
succeeds (one unit of memory is taken) the room returned has the given name and no paths;
when it fails, whatever the name, `criarSala` prints the error message and ends the process
with status 1, and no room is returned. The names that `main` passes all fit: building the
map never leaves defined behaviour. A run of `main` that meets a failure of `malloc` ends
there with status 1: the error message is its whole output, nothing is read and nothing is
released. A run in which the map is built and the exploration ends prints the closing
line, releases the eight rooms and returns 0. -/
theorem criarSala_ou_falha (nome : String) (m : Nat) (out : List String)
    (hcabe : cabeNoNome nome = true) :
    criarSala nome ⟨m + 1, out⟩ = .ok (.mk nome .NULL .NULL) ⟨m, out⟩
      ∧ (∀ outro : String,
          criarSala outro ⟨0, out⟩ = .exit 1 ⟨0, out ++ [msgErroAlocacao]⟩)
      ∧ (∀ w : Mundo, (∃ w1, criarSala nome w = .ok (.mk nome .NULL .NULL) w1)
          ∨ (∃ w1, criarSala nome w = .exit 1 w1))
      ∧ (∀ w : Mundo, montarMapa w ≠ .indefinido)
      ∧ (∀ (fuel mem : Nat) (esc : Char) (ent : List Char), mem < 8 →
          main fuel mem esc ent = some ⟨1, [msgErroAlocacao], ent, []⟩)
      ∧ (∀ (fuel k : Nat) (esc : Char) (ent : List Char) (f : Fim) (s : Estado),
          explorarSalas fuel mapaExemplo esc ent [msgBemVindo, msgIntro] = some (f, s) →
          main fuel (k + 8) esc ent
            = some ⟨0, s.saida ++ [msgEncerrado], s.entrada, enderecosExemplo⟩) := by
  refine ⟨criarSala_cabe nome m out hcabe, fun outro => rfl, ?_, montarMapa_definido, ?_, ?_⟩
  · rintro ⟨mem, o⟩
    cases mem with
    | zero => exact Or.inr ⟨_, rfl⟩
    | succ n => exact Or.inl ⟨_, criarSala_cabe nome n o hcabe⟩
  · intro fuel mem esc ent h
    exact main_sem_memoria fuel mem esc ent h
  · intro fuel k esc ent f s h
    rw [main_com_memoria, h]
    have hl : liberarArvore mapaExemplo [] [] = enderecosExemplo := by decide
    simp [hl]

/-- Instance of C15 amended: the name `Hall de Entrada` fits and the room is returned; with
memory for three rooms `main` ends with status 1; with memory for eight and the input `s`
it ends with status 0 and eight rooms released. -/
theorem criarSala_ou_falha_witness :
    criarSala "Hall de Entrada" ⟨1, []⟩ = .ok (.mk "Hall de Entrada" .NULL .NULL) ⟨0, []⟩
      ∧ main 0 3 'x' ['e'] = some ⟨1, [msgErroAlocacao], ['e'], []⟩
      ∧ main 1 8 'x' ['s']
        = some ⟨0, ([msgBemVindo, msgIntro] ++ saidaCenarioC) ++ [msgEncerrado], [],
            enderecosExemplo⟩ :=
  ⟨(criarSala_ou_falha "Hall de Entrada" 0 [] (by decide)).1,
   (criarSala_ou_falha "Hall de Entrada" 0 [] (by decide)).2.2.2.2.1 0 3 'x' ['e'] (by decide),
   (criarSala_ou_falha "Hall de Entrada" 0 [] (by decide)).2.2.2.2.2 1 0 'x' ['s'] .Exited
      ⟨mapaExemplo, 's', [], [msgBemVindo, msgIntro] ++ saidaCenarioC⟩ rfl⟩

/-- C16: the explorer only moves forward. For every room tree and every input, the rooms of
the successive iterations start at the root and each is the room before it or a room on one
of its paths; the sequence of distinct current rooms is a downward path from the root in
which no room comes back, so the number of room transitions of a run is at most the height
of the tree, and at most 3 on the sample map. -/
theorem explorador_so_desce (fuel : Nat) (sala : Sala) (esc : Char) (ent : List Char)
    (out : List String) :
    (salasVisitadas (fuel + 1) ⟨sala, esc, ent, out⟩).head? = some sala
      ∧ (distintas (salasVisitadas (fuel + 1) ⟨sala, esc, ent, out⟩)).head? = some sala
      ∧ List.Chain' (fun a b => b = a ∨ Sala.filho a b)
          (salasVisitadas fuel ⟨sala, esc, ent, out⟩)
      ∧ List.Chain' Sala.filho (distintas (salasVisitadas fuel ⟨sala, esc, ent, out⟩))
      ∧ (distintas (salasVisitadas fuel ⟨sala, esc, ent, out⟩)).Nodup
      ∧ (distintas (salasVisitadas fuel ⟨sala, esc, ent, out⟩)).length - 1 ≤ sala.altura
      ∧ (distintas (salasVisitadas fuel ⟨mapaExemplo, esc, ent, out⟩)).length - 1 ≤ 3 := by
  have hhead : ∀ r : Sala, (salasVisitadas (fuel + 1) ⟨r, esc, ent, out⟩).head? = some r := by
    intro r
    simp [salasVisitadas, trajeto]
  have hchain : ∀ r : Sala, List.Chain' Sala.filho
      (distintas (salasVisitadas fuel ⟨r, esc, ent, out⟩)) :=
    fun r => chain_distintas _ (salasVisitadas_chain fuel _)
  have hlen : ∀ r : Sala,
      (distintas (salasVisitadas fuel ⟨r, esc, ent, out⟩)).length - 1 ≤ r.altura := by
    intro r
    cases fuel with
    | zero => simp [salasVisitadas, trajeto, distintas]
    | succ n =>
      have hd : (distintas (salasVisitadas (n + 1) ⟨r, esc, ent, out⟩)).head? = some r := by
        rw [head_distintas]; simp [salasVisitadas, trajeto]
      have hc := hchain r
      cases hl : distintas (salasVisitadas (n + 1) ⟨r, esc, ent, out⟩) with
      | nil => simp
      | cons a l =>
        rw [hl] at hd hc
        simp at hd
        subst hd
        have := chain_filho_length l a hc
        simp only [List.length_cons] at this ⊢
        omega
  refine ⟨hhead sala, ?_, salasVisitadas_chain fuel _, hchain sala, ?_, hlen sala, ?_⟩
  · rw [head_distintas]; exact hhead sala
  · exact chain_filho_nodup _ (hchain sala)
  · exact hlen mapaExemplo

/-- C17: started in a room, `explorarSalas` never has the null pointer as current room: the
current room is a room at every test of the loop condition, an iteration that continues
ends in the same room or in a path that was tested to be present, and the loop ends only
by the `break` of a dead end or by the `return` of the exit choice, in a room; whatever the
start, the loop test ends the loop only when the start itself is the null pointer; started
on the null pointer, `explorarSalas` prints nothing, reads nothing and returns. -/
theorem sala_atual_nunca_nula (fuel : Nat) (nome : String) (e d : Sala) (esc : Char)
    (ent : List Char) (out : List String) :
    (∀ t ∈ trajeto fuel ⟨.mk nome e d, esc, ent, out⟩, t.salaAtual.isNull = false)
      ∧ (∀ s s1 : Estado, iteracao s = .continua s1 →
          s.salaAtual.isNull = false ∧ s1.salaAtual.isNull = false
            ∧ (s1.salaAtual = s.salaAtual ∨ Sala.filho s.salaAtual s1.salaAtual))
      ∧ (∀ (f : Fim) (s1 : Estado),
          explorarSalas fuel (.mk nome e d) esc ent out = some (f, s1) →
          (f = .DeadEnd ∨ f = .Exited) ∧ s1.salaAtual.isNull = false)
      ∧ (∀ (sala : Sala) (s1 : Estado),
          explorarSalas fuel sala esc ent out = some (.SalaNula, s1) → sala = .NULL)
      ∧ explorarSalas (fuel + 1) .NULL esc ent out = some (.SalaNula, ⟨.NULL, esc, ent, out⟩)
      ∧ iteracao ⟨.NULL, esc, ent, out⟩ = .termina .SalaNula ⟨.NULL, esc, ent, out⟩ := by
  refine ⟨trajeto_sala fuel _ rfl, ?_, ?_, ?_, rfl, rfl⟩
  · intro s s1 h
    have h1 := iteracao_continua_sala s s1 h
    exact ⟨h1.1, h1.2, iteracao_sala s s1 h⟩
  · intro f s1 h
    rcases laco_fim fuel _ s1 f h with ⟨-, h2, -⟩ | ⟨h1, -, h3⟩
    · simp at h2
    · exact ⟨h1, h3⟩
  · intro sala s1 h
    rcases laco_fim fuel _ s1 _ h with ⟨-, h2, -⟩ | ⟨h1, -, -⟩
    · cases sala with
      | NULL => rfl
      | mk n a b => simp at h2
    · rcases h1 with h1 | h1 <;> cases h1

/-- Instance of C17: the run of scenario C ends by the `return`, in a room. -/
theorem sala_atual_nunca_nula_witness :
    (Fim.Exited = Fim.DeadEnd ∨ Fim.Exited = Fim.Exited) ∧ mapaExemplo.isNull = false :=
  (sala_atual_nunca_nula 1 "Hall de Entrada" mapaExemplo.esquerda mapaExemplo.direita 'x'
    ['s'] []).2.2.1 .Exited ⟨mapaExemplo, 's', [], saidaCenarioC⟩ rfl

/-- C18: at the end of the input (nothing left but white space) in a room with a path, the
read stores nothing and the iteration dispatches the content that `escolha` already has;
this content is never the exit choice after an iteration that continued, so the iteration
continues. On the sample map, with the input `d`, `e` and then the end of the input, the
loop never ends: every test of the loop condition from the second on finds Sala de Jantar,
and from the third on every iteration adds the menu of Sala de Jantar and the blocked
message of the left side. With the input `e` alone the choice is read once and dispatched
three times: Hall de Entrada, Sala de Estar, Biblioteca, Escritorio Secreto, `DeadEnd`. -/
theorem fim_da_entrada (fuel : Nat) (esc0 : Char) (ws1 ws2 ws3 : List Char)
    (h1 : ∀ x ∈ ws1, isspace x = true) (h2 : ∀ x ∈ ws2, isspace x = true)
    (h3 : ∀ x ∈ ws3, isspace x = true) :
    (∀ (nome : String) (e d : Sala) (esc : Char) (out : List String),
        (e.isNull && d.isNull) = false →
        iteracao ⟨.mk nome e d, esc, ws3, out⟩
            = processar ⟨.mk nome e d, esc, [],
                out ++ [msgSeparador, msgVoceEsta nome] ++ menu (.mk nome e d)⟩
          ∧ (esc ≠ 's' → esc ≠ 'S' →
              ∃ s1, iteracao ⟨.mk nome e d, esc, ws3, out⟩ = .continua s1
                ∧ s1.escolha = esc ∧ s1.entrada = []))
      ∧ (∀ s s1 : Estado, iteracao s = .continua s1 → s1.escolha ≠ 's' ∧ s1.escolha ≠ 'S')
      ∧ explorarSalas fuel mapaExemplo esc0 (ws1 ++ 'd' :: (ws2 ++ 'e' :: ws3)) [] = none
      ∧ (trajeto fuel ⟨mapaExemplo, esc0, ws1 ++ 'd' :: (ws2 ++ 'e' :: ws3), []⟩).length = fuel
      ∧ (∀ t ∈ (trajeto fuel ⟨mapaExemplo, esc0, ws1 ++ 'd' :: (ws2 ++ 'e' :: ws3), []⟩).drop 1,
          t.salaAtual = mapaExemplo.direita)
      ∧ mapaExemplo.direita.nome = "Sala de Jantar"
      ∧ ((trajeto (fuel + 3)
            ⟨mapaExemplo, esc0, ws1 ++ 'd' :: (ws2 ++ 'e' :: ws3), []⟩).drop 2).head?
          = some ⟨mapaExemplo.direita, 'e', ws3, saidaCenarioB⟩
      ∧ List.Chain' (fun a b : Estado => b.saida = a.saida ++ blocoJantar)
          ((trajeto fuel ⟨mapaExemplo, esc0, ws1 ++ 'd' :: (ws2 ++ 'e' :: ws3), []⟩).drop 2)
      ∧ blocoJantar.getLast? = some msgBloqueadoEsquerda
      ∧ explorarSalas (fuel + 4) mapaExemplo esc0 (ws1 ++ 'e' :: ws2) []
        = some (.DeadEnd, ⟨.mk "Escritorio Secreto" .NULL .NULL, 'e', [], saidaCenarioA⟩)
      ∧ (trajeto (fuel + 4) ⟨mapaExemplo, esc0, ws1 ++ 'e' :: ws2, []⟩).map
          (fun s => (s.salaAtual.nome, s.entrada))
        = [("Hall de Entrada", ws1 ++ 'e' :: ws2), ("Sala de Estar", ws2),
           ("Biblioteca", []), ("Escritorio Secreto", [])] := by
  obtain ⟨b1, b2⟩ := cenarioB_passos esc0 ws1 ws2 ws3 [] h1 h2
  simp only [List.nil_append] at b1 b2
  have hB : ∀ n : Nat,
      laco (n + 2) ⟨mapaExemplo, esc0, ws1 ++ 'd' :: (ws2 ++ 'e' :: ws3), []⟩
          = laco n ⟨mapaExemplo.direita, 'e', ws3, saidaCenarioB⟩
        ∧ trajeto (n + 2) ⟨mapaExemplo, esc0, ws1 ++ 'd' :: (ws2 ++ 'e' :: ws3), []⟩
          = ⟨mapaExemplo, esc0, ws1 ++ 'd' :: (ws2 ++ 'e' :: ws3), []⟩
            :: ⟨mapaExemplo.direita, 'd', ws2 ++ 'e' :: ws3,
                [msgSeparador, msgVoceEsta "Hall de Entrada"] ++ menu mapaExemplo⟩
            :: trajeto n ⟨mapaExemplo.direita, 'e', ws3, saidaCenarioB⟩ := by
    intro n
    exact ⟨(laco_continua (n + 1) b1).trans (laco_continua n b2),
      (trajeto_continua (n + 1) b1).trans (congrArg _ (trajeto_continua n b2))⟩
  refine ⟨?_, iteracao_continua_escolha, ?_, ?_, ?_, rfl, ?_, ?_, rfl,
    (um_e_passos esc0 ws1 ws2 fuel h1 h2).1, (um_e_passos esc0 ws1 ws2 fuel h1 h2).2⟩
  · intro nome e d esc out hp
    have hfim := iteracao_fim_entrada nome e d esc ws3 out h3 hp
    refine ⟨hfim, ?_⟩
    intro n1 n2
    rw [hfim]
    exact processar_continua ⟨.mk nome e d, esc, [],
      out ++ [msgSeparador, msgVoceEsta nome] ++ menu (.mk nome e d)⟩ n1 n2
  · match fuel with
    | 0 => rfl
    | 1 => exact (laco_continua 0 b1).trans rfl
    | n + 2 =>
      unfold explorarSalas
      rw [(hB n).1]
      exact (jantar_para_sempre n ws3 saidaCenarioB h3).1
  · match fuel with
    | 0 => rfl
    | 1 => rw [trajeto_um]; rfl
    | n + 2 =>
      rw [(hB n).2]
      simp [(jantar_para_sempre n ws3 saidaCenarioB h3).2.1]
  · match fuel with
    | 0 => intro t ht; simp [trajeto] at ht
    | 1 => intro t ht; rw [trajeto_um] at ht; simp at ht
    | n + 2 =>
      rw [(hB n).2]
      intro t ht
      simp only [List.drop_succ_cons, List.drop_zero] at ht
      rcases List.mem_cons.1 ht with h | h
      · rw [h]
      · exact (jantar_para_sempre n ws3 saidaCenarioB h3).2.2.1 t h
  · rw [(hB (fuel + 1)).2]
    simp [trajeto]
  · match fuel with
    | 0 => simp [trajeto]
    | 1 => rw [trajeto_um]; simp
    | n + 2 =>
      rw [(hB n).2]
      simp only [List.drop_succ_cons, List.drop_zero]
      exact (jantar_para_sempre n ws3 saidaCenarioB h3).2.2.2

/-- Instance of C18: the input `d`, `e`, one to a line, and then the end of the input:
after a hundred iterations the loop is still running. -/
theorem fim_da_entrada_witness :
    explorarSalas 100 mapaExemplo 'x' ['d', '\n', 'e', '\n'] [] = none :=
  (fim_da_entrada 100 'x' [] ['\n'] ['\n'] (by decide) (by decide) (by decide)).2.2.1

/-- C19: the copy of the name in `criarSala` stays inside the 50 bytes of the field `nome`
for every room that `main` builds: the tree built has the eight hardcoded names, each of
them with its ending zero byte fits in the field, each has at most 49 characters, and the
longest, `Escritorio Secreto`, has 18. -/
theorem nomes_cabem (k : Nat) (out : List String) :
    (∃ r w, montarMapa ⟨k + 8, out⟩ = .ok r w
        ∧ r.nomes = ["Hall de Entrada", "Sala de Estar", "Biblioteca", "Escritorio Secreto",
            "Jardim de Inverno", "Sala de Jantar", "Cozinha", "Despensa"]
        ∧ (∀ n ∈ r.nomes, cabeNoNome n = true ∧ n.utf8ByteSize = n.length ∧ n.length ≤ 49)
        ∧ (∀ n ∈ r.nomes, n.length ≤ 18))
      ∧ TAM_NOME = 50
      ∧ "Escritorio Secreto".length = 18
      ∧ "Escritorio Secreto".utf8ByteSize + 1 = 19 := by
  refine ⟨⟨mapaExemplo, ⟨k, out⟩, montarMapa_ok k out, by decide, by decide, by decide⟩,
    rfl, by decide, by decide⟩

end DetectiveQuest
